import Mathlib

/-!
# Verification of the lox mesh library against its specification

This file shallowly embeds the parts of the `lox` repository that the
specification's checked properties concern, and settles each property:

* `src/cast.rs` — the four-level numeric cast fidelity ladder
  (lossless / clamping / rounding / lossy), its trait-impl lists and the
  fidelity table from the module documentation.
* `src/handle.rs` — 32-bit handles and the space-efficient optional
  handle wrapper `Opt<H>` with the sentinel `2^32 - 1`.
* `src/ds/shared_vertex.rs` — the `SharedVertexMesh` operations and the
  `check_integrity` invariant.
* `src/fev-io/src/stl/write.rs` — face-normal computation of the STL
  writer (`CalculateFaceNormals`).
* `src/tools/convert/src/main.rs` — the convert CLI's error reporting
  and exit codes.
* the PLY writer/reader pair, modelled from the spec (its implementation
  is not among the provided sources; only its tests are).

Machine integers are embedded as `Nat`/`Int` with explicit wrapping where
the source can overflow; code that can panic or fail is embedded with
`Option`/`Except`.
-/

namespace Cast

/-- The twelve primitive numeric types of `src/cast.rs`
(`impl_lossless!` / `impl_clamping!` / `impl_rounding!` /
`impl_lossy_float_to_int!` cover exactly these). -/
inductive PrimTy where
  | u8 | u16 | u32 | u64 | u128
  | i8 | i16 | i32 | i64 | i128
  | f32 | f64
deriving DecidableEq, Repr, Fintype

/-- The four cast rigors (fidelities) of `src/cast.rs`:
`Lossless`, `AllowClamping`, `AllowRounding`, `Lossy`. -/
inductive Rigor where
  | lossless | allowClamping | allowRounding | lossy
deriving DecidableEq, Repr, Fintype

open PrimTy

/-- The `(Src, Dst)` pairs for which `impl_lossless!` is invoked in
`src/cast.rs` (lines 401-481).  For each pair it implements
`LosslessCastFrom`, `RoundingCastFrom`, `ClampingCastFrom` and
`LossyCastFrom`. -/
def losslessImpls : List (PrimTy × PrimTy) := [
  -- Unsigned to unsigned
  (u8, u8), (u8, u16), (u8, u32), (u8, u64), (u8, u128),
  (u16, u16), (u16, u32), (u16, u64), (u16, u128),
  (u32, u32), (u32, u64), (u32, u128),
  (u64, u64), (u64, u128),
  (u128, u128),
  -- Unsigned to signed
  (u8, i16), (u8, i32), (u8, i64), (u8, i128),
  (u16, i32), (u16, i64), (u16, i128),
  (u32, i64), (u32, i128),
  (u64, i128),
  -- Signed to signed
  (i8, i8), (i8, i16), (i8, i32), (i8, i64), (i8, i128),
  (i16, i16), (i16, i32), (i16, i64), (i16, i128),
  (i32, i32), (i32, i64), (i32, i128),
  (i64, i64), (i64, i128),
  (i128, i128),
  -- Unsigned to float
  (u8, f32), (u8, f64),
  (u16, f32), (u16, f64),
  (u32, f64),
  -- Signed to float
  (i8, f32), (i8, f64),
  (i16, f32), (i16, f64),
  (i32, f64),
  -- Float to float
  (f32, f32), (f32, f64), (f64, f64)]

/-- The three code shapes generated by `impl_clamping!` in `src/cast.rs`
(`top`, `neg`, `both`). -/
inductive ClampVariant where
  | top | neg | both
deriving DecidableEq, Repr

/-- The `(variant, Src, Dst)` triples for which `impl_clamping!` is
invoked in `src/cast.rs` (lines 529-611).  Each triple implements
`ClampingCastFrom` and `LossyCastFrom`. -/
def clampingImplsV : List (ClampVariant × PrimTy × PrimTy) := [
  -- Unsigned to unsigned
  (.top, u16, u8),
  (.top, u32, u8), (.top, u32, u16),
  (.top, u64, u8), (.top, u64, u16), (.top, u64, u32),
  (.top, u128, u8), (.top, u128, u16), (.top, u128, u32), (.top, u128, u64),
  -- Unsigned to signed
  (.top, u8, i8),
  (.top, u16, i8), (.top, u16, i16),
  (.top, u32, i8), (.top, u32, i16), (.top, u32, i32),
  (.top, u64, i8), (.top, u64, i16), (.top, u64, i32), (.top, u64, i64),
  (.top, u128, i8), (.top, u128, i16), (.top, u128, i32), (.top, u128, i64),
  (.top, u128, i128),
  -- Signed to unsigned
  (.neg, i8, u8), (.neg, i8, u16), (.neg, i8, u32), (.neg, i8, u64),
  (.neg, i8, u128),
  (.both, i16, u8), (.neg, i16, u16), (.neg, i16, u32), (.neg, i16, u64),
  (.neg, i16, u128),
  (.both, i32, u8), (.both, i32, u16), (.neg, i32, u32), (.neg, i32, u64),
  (.neg, i32, u128),
  (.both, i64, u8), (.both, i64, u16), (.both, i64, u32), (.neg, i64, u64),
  (.neg, i64, u128),
  (.both, i128, u8), (.both, i128, u16), (.both, i128, u32),
  (.both, i128, u64), (.neg, i128, u128),
  -- Signed to signed
  (.both, i16, i8),
  (.both, i32, i8), (.both, i32, i16),
  (.both, i64, i8), (.both, i64, i16), (.both, i64, i32),
  (.both, i128, i8), (.both, i128, i16), (.both, i128, i32),
  (.both, i128, i64)]

/-- The `(Src, Dst)` pairs of `clampingImplsV`, variants dropped. -/
def clampingImpls : List (PrimTy × PrimTy) :=
  clampingImplsV.map (fun e => e.2)

/-- The `(Src, Dst)` pairs for which `impl_rounding!` is invoked in
`src/cast.rs` (lines 633-654).  Each pair implements `RoundingCastFrom`
and `LossyCastFrom`. -/
def roundingImpls : List (PrimTy × PrimTy) := [
  (u32, f32),
  (u64, f32), (u64, f64),
  (u128, f32), (u128, f64),
  (i32, f32),
  (i64, f32), (i64, f64),
  (i128, f32), (i128, f64),
  (f32, i128)]

/-- The `(Src, Dst)` pairs with a lossy-only impl in `src/cast.rs`: the
standalone `impl LossyCastFrom<f64> for f32` (line 658) and the pairs of
`impl_lossy_float_to_int!` (lines 689-710). -/
def lossyOnlyImpls : List (PrimTy × PrimTy) := [
  (f64, f32),
  (f32, u8), (f32, u16), (f32, u32), (f32, u64), (f32, u128),
  (f32, i8), (f32, i16), (f32, i32), (f32, i64),
  (f64, u8), (f64, u16), (f64, u32), (f64, u64), (f64, u128),
  (f64, i8), (f64, i16), (f64, i32), (f64, i64), (f64, i128)]

/-- Whether `try_cast::<R, Src, Dst>` in `src/cast.rs` succeeds (returns
`Some`).  By the specialization structure of `TryCastFrom` (lines
346-363) it succeeds exactly when the rigor-specific trait is
implemented for `(Src, Dst)`, and — as the module documentation states —
never depends on the value being cast.  The rigor-specific traits are
implemented by the macro invocation lists transcribed above
(`impl_lossless!` also implements the clamping, rounding and lossy
traits; `impl_clamping!` and `impl_rounding!` also implement the lossy
trait). -/
def tryCastSucceeds (r : Rigor) (s d : PrimTy) : Bool :=
  match r with
  | .lossless => (s, d) ∈ losslessImpls
  | .allowClamping => (s, d) ∈ losslessImpls || (s, d) ∈ clampingImpls
  | .allowRounding => (s, d) ∈ losslessImpls || (s, d) ∈ roundingImpls
  | .lossy =>
      (s, d) ∈ losslessImpls || (s, d) ∈ clampingImpls ||
      (s, d) ∈ roundingImpls || (s, d) ∈ lossyOnlyImpls

/-- What information loss a `(Src, Dst)` cast can incur, per the cell
markings of the fidelity table in the module documentation of
`src/cast.rs` (lines 39-54): empty cell, '×' (clamping), '○' (rounding),
'⊗' (both). -/
inductive Loss where
  | free | clamp | round | both
deriving DecidableEq, Repr

/-- Column order of the fidelity table in `src/cast.rs`. -/
def colIdx : PrimTy → Nat
  | u8 => 0 | u16 => 1 | u32 => 2 | u64 => 3 | u128 => 4
  | i8 => 5 | i16 => 6 | i32 => 7 | i64 => 8 | i128 => 9
  | f32 => 10 | f64 => 11

/-- The rows of the fidelity table in the module documentation of
`src/cast.rs` (lines 39-54), transcribed cell by cell. -/
def lossRow : PrimTy → List Loss
  | u8 =>   [.free, .free, .free, .free, .free,
             .clamp, .free, .free, .free, .free, .free, .free]
  | u16 =>  [.clamp, .free, .free, .free, .free,
             .clamp, .clamp, .free, .free, .free, .free, .free]
  | u32 =>  [.clamp, .clamp, .free, .free, .free,
             .clamp, .clamp, .clamp, .free, .free, .round, .free]
  | u64 =>  [.clamp, .clamp, .clamp, .free, .free,
             .clamp, .clamp, .clamp, .clamp, .free, .round, .round]
  | u128 => [.clamp, .clamp, .clamp, .clamp, .free,
             .clamp, .clamp, .clamp, .clamp, .clamp, .round, .round]
  | i8 =>   [.clamp, .clamp, .clamp, .clamp, .clamp,
             .free, .free, .free, .free, .free, .free, .free]
  | i16 =>  [.clamp, .clamp, .clamp, .clamp, .clamp,
             .clamp, .free, .free, .free, .free, .free, .free]
  | i32 =>  [.clamp, .clamp, .clamp, .clamp, .clamp,
             .clamp, .clamp, .free, .free, .free, .round, .free]
  | i64 =>  [.clamp, .clamp, .clamp, .clamp, .clamp,
             .clamp, .clamp, .clamp, .free, .free, .round, .round]
  | i128 => [.clamp, .clamp, .clamp, .clamp, .clamp,
             .clamp, .clamp, .clamp, .clamp, .free, .round, .round]
  | f32 =>  [.both, .both, .both, .both, .both,
             .both, .both, .both, .both, .round, .free, .free]
  | f64 =>  [.both, .both, .both, .both, .both,
             .both, .both, .both, .both, .both, .both, .free]

/-- The fidelity table of `src/cast.rs`, as a function. -/
def lossTable (s d : PrimTy) : Loss :=
  (lossRow s).getD (colIdx d) .free

/-- Whether a given rigor permits a given kind of information loss:
lossless permits none, clamping permits clamping only, rounding permits
rounding only, lossy permits both. -/
def permits (r : Rigor) (l : Loss) : Bool :=
  match r, l with
  | _, .free => true
  | .allowClamping, .clamp => true
  | .allowRounding, .round => true
  | .lossy, _ => true
  | _, _ => false

/-- A typed cast error, modelled from the spec's error taxonomy:
`CastFailed{from, to, fidelity}`. -/
inductive CastError where
  | castFailed (src dst : PrimTy) (fidelity : Rigor)
deriving DecidableEq, Repr

/-- Modelled from the spec: the structured reading layer (not among the
provided sources) turns a `None` from `try_cast` into the typed error
`CastFailed{from, to, fidelity}` instead of silently truncating
("A mismatch that would exceed the caller-selected fidelity is reported
as a typed error"). -/
def checkedCastOutcome (r : Rigor) (s d : PrimTy) : Except CastError Unit :=
  if tryCastSucceeds r s d then .ok () else .error (.castFailed s d r)

end Cast

namespace Cast

/-- Helper for C1: the impl lists agree with the fidelity table, checked
on all 576 `(rigor, src, dst)` combinations. -/
theorem tryCastSucceeds_eq_table :
    ∀ (r : Rigor) (s d : PrimTy),
      tryCastSucceeds r s d = permits r (lossTable s d) := by
  decide

/-- **C1.** For every pair of primitive numeric types `(T, U)` and every
fidelity, the cast from `T` to `U` under that fidelity succeeds if and
only if the fidelity table of `src/cast.rs` marks the combination as
permitted (the information loss the cast can incur is within what the
fidelity allows); for a forbidden combination the layer fails with the
typed error `CastFailed{from, to, fidelity}`. -/
theorem c1_cast_fidelity_table :
    ∀ (r : Rigor) (s d : PrimTy),
      tryCastSucceeds r s d = permits r (lossTable s d) ∧
      (permits r (lossTable s d) = false →
        checkedCastOutcome r s d = .error (.castFailed s d r)) := by
  intro r s d
  refine ⟨tryCastSucceeds_eq_table r s d, fun h => ?_⟩
  simp [checkedCastOutcome, tryCastSucceeds_eq_table r s d, h]

/-- Witness for `c1_cast_fidelity_table`: the inner implication
discharged at the concrete triple `(Lossless, f64, f32)`. -/
theorem c1_cast_fidelity_table_witness :
    tryCastSucceeds .lossless .f64 .f32
      = permits .lossless (lossTable .f64 .f32) ∧
    checkedCastOutcome .lossless .f64 .f32
      = .error (.castFailed .f64 .f32 .lossless) :=
  ⟨(c1_cast_fidelity_table .lossless .f64 .f32).1,
   (c1_cast_fidelity_table .lossless .f64 .f32).2 (by decide)⟩

end Cast

namespace Cast

/-- The ten primitive integer types (the casts of C8 act on these). -/
inductive IntTy where
  | u8 | u16 | u32 | u64 | u128
  | i8 | i16 | i32 | i64 | i128
deriving DecidableEq, Repr, Fintype

open IntTy

/-- Bit width of an integer type. -/
def IntTy.bits : IntTy → Nat
  | .u8 => 8 | .u16 => 16 | .u32 => 32 | .u64 => 64 | .u128 => 128
  | .i8 => 8 | .i16 => 16 | .i32 => 32 | .i64 => 64 | .i128 => 128

/-- Whether the integer type is signed. -/
def IntTy.signed : IntTy → Bool
  | .u8 | .u16 | .u32 | .u64 | .u128 => false
  | .i8 | .i16 | .i32 | .i64 | .i128 => true

/-- `T::min_value()`. -/
def IntTy.minV (t : IntTy) : ℤ :=
  if t.signed then -(2 ^ (t.bits - 1)) else 0

/-- `T::max_value()`. -/
def IntTy.maxV (t : IntTy) : ℤ :=
  if t.signed then 2 ^ (t.bits - 1) - 1 else 2 ^ t.bits - 1

/-- `v` lies in the representable range of `t`. -/
def IntTy.inRange (t : IntTy) (v : ℤ) : Prop := t.minV ≤ v ∧ v ≤ t.maxV

/-- Rust's `as` conversion between integer types: truncate to the
destination's bit width and reinterpret (two's complement). -/
def asWrap (t : IntTy) (v : ℤ) : ℤ :=
  (v - t.minV) % (2 ^ t.bits) + t.minV

/-- The code bodies generated by `impl_clamping!` in `src/cast.rs`
(lines 485-527), one per variant:
* `top`:  `if v > $dst::max_value() as $src { $dst::max_value() } else { v as $dst }`
* `neg`:  `if v < $dst::min_value() as $src { $dst::min_value() } else { v as $dst }`
* `both`: both comparisons, then `v as $dst`. -/
def clamping_cast_from (var : ClampVariant) (s d : IntTy) (v : ℤ) : ℤ :=
  match var with
  | .top => if v > asWrap s d.maxV then d.maxV else asWrap d v
  | .neg => if v < asWrap s d.minV then d.minV else asWrap d v
  | .both =>
      if v > asWrap s d.maxV then d.maxV
      else if v < asWrap s d.minV then d.minV
      else asWrap d v

/-- The `(variant, Src, Dst)` triples of `impl_clamping!` over `IntTy`
(the integer projection of `clampingImplsV`; transcribed from
`src/cast.rs` lines 529-611). -/
def clampingIntImpls : List (ClampVariant × IntTy × IntTy) := [
  (ClampVariant.top, u16, u8),
  (ClampVariant.top, u32, u8), (ClampVariant.top, u32, u16),
  (ClampVariant.top, u64, u8), (ClampVariant.top, u64, u16), (ClampVariant.top, u64, u32),
  (ClampVariant.top, u128, u8), (ClampVariant.top, u128, u16), (ClampVariant.top, u128, u32),
  (ClampVariant.top, u128, u64),
  (ClampVariant.top, u8, i8),
  (ClampVariant.top, u16, i8), (ClampVariant.top, u16, i16),
  (ClampVariant.top, u32, i8), (ClampVariant.top, u32, i16), (ClampVariant.top, u32, i32),
  (ClampVariant.top, u64, i8), (ClampVariant.top, u64, i16), (ClampVariant.top, u64, i32),
  (ClampVariant.top, u64, i64),
  (ClampVariant.top, u128, i8), (ClampVariant.top, u128, i16), (ClampVariant.top, u128, i32),
  (ClampVariant.top, u128, i64), (ClampVariant.top, u128, i128),
  (ClampVariant.neg, i8, u8), (ClampVariant.neg, i8, u16), (ClampVariant.neg, i8, u32), (ClampVariant.neg, i8, u64),
  (ClampVariant.neg, i8, u128),
  (ClampVariant.both, i16, u8), (ClampVariant.neg, i16, u16), (ClampVariant.neg, i16, u32),
  (ClampVariant.neg, i16, u64), (ClampVariant.neg, i16, u128),
  (ClampVariant.both, i32, u8), (ClampVariant.both, i32, u16), (ClampVariant.neg, i32, u32),
  (ClampVariant.neg, i32, u64), (ClampVariant.neg, i32, u128),
  (ClampVariant.both, i64, u8), (ClampVariant.both, i64, u16), (ClampVariant.both, i64, u32),
  (ClampVariant.neg, i64, u64), (ClampVariant.neg, i64, u128),
  (ClampVariant.both, i128, u8), (ClampVariant.both, i128, u16), (ClampVariant.both, i128, u32),
  (ClampVariant.both, i128, u64), (ClampVariant.neg, i128, u128),
  (ClampVariant.both, i16, i8),
  (ClampVariant.both, i32, i8), (ClampVariant.both, i32, i16),
  (ClampVariant.both, i64, i8), (ClampVariant.both, i64, i16), (ClampVariant.both, i64, i32),
  (ClampVariant.both, i128, i8), (ClampVariant.both, i128, i16), (ClampVariant.both, i128, i32),
  (ClampVariant.both, i128, i64)]

/-- The side conditions under which each `impl_clamping!` variant
clamps correctly, following the macro's comments (`src/cast.rs` lines
501, 509, 517):
`top` is used when `src::max >= dst::max` and `src::min >= dst::min`
(only the upper bound needs checking),
`neg` when `src::max <= dst::max` and `src::min <= dst::min`
(only the lower bound needs checking),
`both` when both bounds of `dst` lie inside `src`'s range. -/
def variantOK (var : ClampVariant) (s d : IntTy) : Bool :=
  match var with
  | .top => d.maxV ≤ s.maxV && d.minV ≤ s.minV
  | .neg => s.maxV ≤ d.maxV && s.minV ≤ d.minV
  | .both => d.maxV ≤ s.maxV && s.minV ≤ d.minV

end Cast

namespace Cast

open IntTy

/-- The two floating point source types of `impl_lossy_float_to_int!`. -/
inductive FloatSrc where
  | f32 | f64
deriving DecidableEq, Repr

/-- Truncation toward zero, the rounding used by Rust's float-to-integer
`as` conversion.  Finite float values are represented by the exact
rational they denote. -/
def truncQ (q : ℚ) : ℤ := if 0 ≤ q then ⌊q⌋ else ⌈q⌉

/-- Rust's float-to-integer `as` conversion on a finite float value:
truncate toward zero and saturate at the destination's bounds (the
defined semantics of `as`). -/
def satAs (d : IntTy) (q : ℚ) : ℤ := max d.minV (min d.maxV (truncQ q))

/-- The constant `std::$dst::MAX as $src` appearing in
`impl_lossy_float_to_int!` (`src/cast.rs` line 676): the IEEE-754
rounding of the destination's maximum to the float source type.
`none` encodes positive infinity (`u128::MAX as f32` overflows the
`f32` range). -/
def maxConst (fs : FloatSrc) (d : IntTy) : Option ℚ :=
  match fs, d with
  | .f32, .u8 => some 255
  | .f32, .u16 => some 65535
  | .f32, .u32 => some 4294967296
  | .f32, .u64 => some 18446744073709551616
  | .f32, .u128 => none
  | .f32, .i8 => some 127
  | .f32, .i16 => some 32767
  | .f32, .i32 => some 2147483648
  | .f32, .i64 => some 9223372036854775808
  | .f32, .i128 => some 170141183460469231731687303715884105728
  | .f64, .u8 => some 255
  | .f64, .u16 => some 65535
  | .f64, .u32 => some 4294967295
  | .f64, .u64 => some 18446744073709551616
  | .f64, .u128 => some 340282366920938463463374607431768211456
  | .f64, .i8 => some 127
  | .f64, .i16 => some 32767
  | .f64, .i32 => some 2147483647
  | .f64, .i64 => some 9223372036854775808
  | .f64, .i128 => some 170141183460469231731687303715884105728

/-- The constant `std::$dst::MIN as $src` appearing in
`impl_lossy_float_to_int!` (`src/cast.rs` line 678).  Every integer
minimum (`0` or `-2^k`) is exactly representable in both float types. -/
def minConst (_fs : FloatSrc) (d : IntTy) : ℚ := d.minV

/-- The comparison `src > std::$dst::MAX as $src`, with `none` standing
for positive infinity (always false for a finite `src`). -/
def gtMaxConst (q : ℚ) : Option ℚ → Bool
  | none => false
  | some m => decide (q > m)

/-- The code body generated by `impl_lossy_float_to_int!` in
`src/cast.rs` (lines 665-687):
`if src > MAX as Src { MAX } else if src < MIN as Src { MIN } else { src as Dst }`. -/
def lossy_cast_from_float (fs : FloatSrc) (d : IntTy) (q : ℚ) : ℤ :=
  if gtMaxConst q (maxConst fs d) then d.maxV
  else if q < minConst fs d then d.minV
  else satAs d q

/-- The `(Src, Dst)` pairs for which `impl_lossy_float_to_int!` is
invoked in `src/cast.rs` (lines 689-710). -/
def lossyFloatToIntImpls : List (FloatSrc × IntTy) := [
  (.f32, u8), (.f32, u16), (.f32, u32), (.f32, u64), (.f32, u128),
  (.f32, i8), (.f32, i16), (.f32, i32), (.f32, i64),
  (.f64, u8), (.f64, u16), (.f64, u32), (.f64, u64), (.f64, u128),
  (.f64, i8), (.f64, i16), (.f64, i32), (.f64, i64), (.f64, i128)]

/-- Side conditions making the float-to-int shape saturate correctly:
the rounded maximum is `+∞` or at least the true maximum, and the
rounded minimum equals the true minimum. -/
def floatBoundsOK (fs : FloatSrc) (d : IntTy) : Bool :=
  (match maxConst fs d with
   | none => true
   | some m => decide ((d.maxV : ℚ) ≤ m)) &&
  decide (minConst fs d = (d.minV : ℚ))

end Cast

namespace Cast

/-- The representable span of an integer type is `2 ^ bits`. -/
theorem IntTy.span_eq (t : IntTy) : t.maxV - t.minV + 1 = 2 ^ t.bits := by
  cases t <;> decide

/-- Integer minima are nonpositive. -/
theorem IntTy.minV_nonpos (t : IntTy) : t.minV ≤ 0 := by
  cases t <;> decide

/-- Integer maxima are nonnegative. -/
theorem IntTy.maxV_nonneg (t : IntTy) : 0 ≤ t.maxV := by
  cases t <;> decide

/-- An `as` conversion of an in-range value is the identity. -/
theorem asWrap_eq_of_inRange (t : IntTy) (v : ℤ)
    (h1 : t.minV ≤ v) (h2 : v ≤ t.maxV) : asWrap t v = v := by
  unfold asWrap
  have hs := t.span_eq
  rw [Int.emod_eq_of_lt (by omega) (by omega)]
  omega

/-- The `top` shape of `impl_clamping!` clamps correctly when both
`dst` bounds are dominated by the `src` bounds. -/
theorem clamping_top_correct (s d : IntTy) (v : ℤ)
    (hmax : d.maxV ≤ s.maxV) (hmin : d.minV ≤ s.minV)
    (hv1 : s.minV ≤ v) (_hv2 : v ≤ s.maxV) :
    (d.inRange v → clamping_cast_from .top s d v = v) ∧
    (d.maxV < v → clamping_cast_from .top s d v = d.maxV) ∧
    (v < d.minV → clamping_cast_from .top s d v = d.minV) := by
  have hc : asWrap s d.maxV = d.maxV :=
    asWrap_eq_of_inRange s d.maxV (le_trans s.minV_nonpos d.maxV_nonneg) hmax
  refine ⟨fun hin => ?_, fun hgt => ?_, fun hlt => ?_⟩
  · obtain ⟨hi1, hi2⟩ := hin
    have h1 : ¬ v > d.maxV := by omega
    simp only [clamping_cast_from, hc, if_neg h1]
    exact asWrap_eq_of_inRange d v hi1 hi2
  · have h1 : v > d.maxV := hgt
    simp only [clamping_cast_from, hc, if_pos h1]
  · exact absurd hlt (by omega)

/-- The `neg` shape of `impl_clamping!` clamps correctly when both
`src` bounds are dominated by the `dst` bounds. -/
theorem clamping_neg_correct (s d : IntTy) (v : ℤ)
    (hmax : s.maxV ≤ d.maxV) (hmin : s.minV ≤ d.minV)
    (_hv1 : s.minV ≤ v) (hv2 : v ≤ s.maxV) :
    (d.inRange v → clamping_cast_from .neg s d v = v) ∧
    (d.maxV < v → clamping_cast_from .neg s d v = d.maxV) ∧
    (v < d.minV → clamping_cast_from .neg s d v = d.minV) := by
  have hc : asWrap s d.minV = d.minV :=
    asWrap_eq_of_inRange s d.minV hmin (le_trans d.minV_nonpos s.maxV_nonneg)
  refine ⟨fun hin => ?_, fun hgt => ?_, fun hlt => ?_⟩
  · obtain ⟨hi1, hi2⟩ := hin
    have h1 : ¬ v < d.minV := by omega
    simp only [clamping_cast_from, hc, if_neg h1]
    exact asWrap_eq_of_inRange d v hi1 hi2
  · exact absurd hgt (by omega)
  · have h1 : v < d.minV := hlt
    simp only [clamping_cast_from, hc, if_pos h1]

/-- The `both` shape of `impl_clamping!` clamps correctly when both
`dst` bounds lie inside `src`'s range. -/
theorem clamping_both_correct (s d : IntTy) (v : ℤ)
    (hmax : d.maxV ≤ s.maxV) (hmin : s.minV ≤ d.minV)
    (_hv1 : s.minV ≤ v) (_hv2 : v ≤ s.maxV) :
    (d.inRange v → clamping_cast_from .both s d v = v) ∧
    (d.maxV < v → clamping_cast_from .both s d v = d.maxV) ∧
    (v < d.minV → clamping_cast_from .both s d v = d.minV) := by
  have hcx : asWrap s d.maxV = d.maxV :=
    asWrap_eq_of_inRange s d.maxV (le_trans s.minV_nonpos d.maxV_nonneg) hmax
  have hcn : asWrap s d.minV = d.minV :=
    asWrap_eq_of_inRange s d.minV hmin (le_trans d.minV_nonpos s.maxV_nonneg)
  refine ⟨fun hin => ?_, fun hgt => ?_, fun hlt => ?_⟩
  · obtain ⟨hi1, hi2⟩ := hin
    have h1 : ¬ v > d.maxV := by omega
    have h2 : ¬ v < d.minV := by omega
    simp only [clamping_cast_from, hcx, hcn, if_neg h1, if_neg h2]
    exact asWrap_eq_of_inRange d v hi1 hi2
  · have h1 : v > d.maxV := hgt
    simp only [clamping_cast_from, hcx, if_pos h1]
  · have hdd : d.minV ≤ d.maxV := le_trans d.minV_nonpos d.maxV_nonneg
    have h1 : ¬ v > d.maxV := by omega
    have h2 : v < d.minV := hlt
    simp only [clamping_cast_from, hcx, hcn, if_neg h1, if_pos h2]

end Cast

namespace Cast

/-- Every `impl_clamping!` invocation uses the variant matching its
type pair's bounds (checked over all 59 invocations). -/
theorem clampingIntImpls_ok :
    ∀ e ∈ clampingIntImpls, variantOK e.1 e.2.1 e.2.2 = true := by
  decide

/-- Every `impl_lossy_float_to_int!` invocation has correctly rounded
bound constants (checked over all 19 invocations). -/
theorem lossyFloatToIntImpls_ok :
    ∀ e ∈ lossyFloatToIntImpls, floatBoundsOK e.1 e.2 = true := by
  decide

/-- Truncation of a value lying between the integer bounds of `d` stays
between those bounds. -/
theorem truncQ_mem (d : IntTy) (q : ℚ)
    (h1 : (d.minV : ℚ) ≤ q) (h2 : q ≤ (d.maxV : ℚ)) :
    d.minV ≤ truncQ q ∧ truncQ q ≤ d.maxV := by
  unfold truncQ
  by_cases h0 : 0 ≤ q
  · rw [if_pos h0]
    constructor
    · exact Int.le_floor.mpr h1
    · have : (⌊q⌋ : ℚ) ≤ (d.maxV : ℚ) := le_trans (Int.floor_le q) h2
      exact_mod_cast this
  · rw [if_neg h0]
    constructor
    · have : (d.minV : ℚ) ≤ (⌈q⌉ : ℚ) := le_trans h1 (Int.le_ceil q)
      exact_mod_cast this
    · exact Int.ceil_le.mpr h2

/-- The float-to-int shape of `impl_lossy_float_to_int!` saturates at
the destination bounds and truncates in range, given correctly rounded
bound constants. -/
theorem lossy_float_correct (fs : FloatSrc) (d : IntTy)
    (hok : floatBoundsOK fs d = true) (q : ℚ) :
    ((d.minV : ℚ) ≤ q → q ≤ (d.maxV : ℚ) →
      lossy_cast_from_float fs d q = truncQ q) ∧
    ((d.maxV : ℚ) < q → lossy_cast_from_float fs d q = d.maxV) ∧
    (q < (d.minV : ℚ) → lossy_cast_from_float fs d q = d.minV) := by
  have hdd : d.minV ≤ d.maxV := le_trans d.minV_nonpos d.maxV_nonneg
  have hddq : (d.minV : ℚ) ≤ (d.maxV : ℚ) := by exact_mod_cast hdd
  have hminq : minConst fs d = (d.minV : ℚ) := rfl
  unfold floatBoundsOK at hok
  rw [Bool.and_eq_true] at hok
  refine ⟨fun h1 h2 => ?_, fun hgt => ?_, fun hlt => ?_⟩
  · -- in range: neither branch fires, `as` truncates without saturating
    have hng : gtMaxConst q (maxConst fs d) = false := by
      rcases hM : maxConst fs d with _ | M
      · rfl
      · rw [hM] at hok
        have hMok : (d.maxV : ℚ) ≤ M := by
          have := hok.1; simp only [decide_eq_true_eq] at this; exact this
        simp only [gtMaxConst, decide_eq_false_iff_not, not_lt]
        exact le_trans h2 hMok
    have hnl : ¬ q < minConst fs d := by rw [hminq]; exact not_lt.mpr h1
    obtain ⟨ht1, ht2⟩ := truncQ_mem d q h1 h2
    simp only [lossy_cast_from_float, hng, Bool.false_eq_true, if_false,
      if_neg hnl, satAs]
    rw [min_eq_right ht2, max_eq_right ht1]
  · -- above the maximum: saturate to the maximum
    have h0q : (0 : ℚ) ≤ q := le_trans (by exact_mod_cast d.maxV_nonneg) hgt.le
    have hfl : d.maxV ≤ ⌊q⌋ := Int.le_floor.mpr hgt.le
    have hsat : satAs d q = d.maxV := by
      unfold satAs truncQ
      rw [if_pos h0q, min_eq_left hfl, max_eq_right hdd]
    have hnl : ¬ q < minConst fs d := by
      rw [hminq]; exact not_lt.mpr (le_trans hddq hgt.le)
    rcases hM : maxConst fs d with _ | M
    · simp only [lossy_cast_from_float, hM, gtMaxConst, Bool.false_eq_true,
        if_false, if_neg hnl]
      exact hsat
    · by_cases hq : q > M
      · simp only [lossy_cast_from_float, hM, gtMaxConst, decide_eq_true_eq,
          if_pos hq]
      · simp only [lossy_cast_from_float, hM, gtMaxConst, decide_eq_true_eq,
          if_neg hq, if_neg hnl]
        exact hsat
  · -- below the minimum: saturate to the minimum
    have hng : gtMaxConst q (maxConst fs d) = false := by
      rcases hM : maxConst fs d with _ | M
      · rfl
      · rw [hM] at hok
        have hMok : (d.maxV : ℚ) ≤ M := by
          have := hok.1; simp only [decide_eq_true_eq] at this; exact this
        simp only [gtMaxConst, decide_eq_false_iff_not, not_lt]
        exact le_trans (le_trans hlt.le hddq) hMok
    have hl : q < minConst fs d := by rw [hminq]; exact hlt
    simp only [lossy_cast_from_float, hng, Bool.false_eq_true, if_false,
      if_pos hl]

/-- **C8.** For every integer type pair `(Src, Dst)` with a clamping
cast: an in-range value is returned exactly, a value above `Dst`'s
maximum yields `Dst`'s maximum, and a value below `Dst`'s minimum yields
`Dst`'s minimum.  Lossy casts from `f32`/`f64` to integer types saturate
at the destination bounds in the same way (and truncate toward zero in
range). -/
theorem c8_clamping_and_lossy_saturation :
    (∀ var s d, (var, s, d) ∈ clampingIntImpls → ∀ v : ℤ, s.inRange v →
        (d.inRange v → clamping_cast_from var s d v = v) ∧
        (d.maxV < v → clamping_cast_from var s d v = d.maxV) ∧
        (v < d.minV → clamping_cast_from var s d v = d.minV)) ∧
    (∀ fs d, (fs, d) ∈ lossyFloatToIntImpls → ∀ q : ℚ,
        ((d.minV : ℚ) ≤ q → q ≤ (d.maxV : ℚ) →
          lossy_cast_from_float fs d q = truncQ q) ∧
        ((d.maxV : ℚ) < q → lossy_cast_from_float fs d q = d.maxV) ∧
        (q < (d.minV : ℚ) → lossy_cast_from_float fs d q = d.minV)) := by
  constructor
  · intro var s d hmem v hv
    have hok := clampingIntImpls_ok _ hmem
    obtain ⟨hv1, hv2⟩ := hv
    cases var with
    | top =>
        simp only [variantOK, Bool.and_eq_true, decide_eq_true_eq] at hok
        exact clamping_top_correct s d v hok.1 hok.2 hv1 hv2
    | neg =>
        simp only [variantOK, Bool.and_eq_true, decide_eq_true_eq] at hok
        exact clamping_neg_correct s d v hok.1 hok.2 hv1 hv2
    | both =>
        simp only [variantOK, Bool.and_eq_true, decide_eq_true_eq] at hok
        exact clamping_both_correct s d v hok.1 hok.2 hv1 hv2
  · intro fs d hmem q
    exact lossy_float_correct fs d (lossyFloatToIntImpls_ok _ hmem) q

/-- Witness for `c8_clamping_and_lossy_saturation`: the clamping cast
`i16 -> u8` of `20000` yields `255`, and the lossy cast `f32 -> i8` of
`200.0` yields `127`. -/
theorem c8_clamping_and_lossy_saturation_witness :
    clamping_cast_from .both .i16 .u8 20000 = 255 ∧
    lossy_cast_from_float .f32 .i8 (200 : ℚ) = 127 := by
  constructor
  · exact ((c8_clamping_and_lossy_saturation.1 .both .i16 .u8 (by decide)
      20000 ⟨by decide, by decide⟩).2.1 (by decide))
  · exact ((c8_clamping_and_lossy_saturation.2 .f32 .i8 (by decide)
      200).2.1 (by norm_num [IntTy.maxV, IntTy.signed, IntTy.bits]))

end Cast

namespace Hdl

/-- The handle index type `hsize` of `src/handle.rs`: always a 32-bit
unsigned integer (`pub type hsize = u32`, a type alias). -/
abbrev hsize : Type := Fin (2 ^ 32)

/-- `hsize::max_value()`, the reserved sentinel index. -/
def hsizeMax : hsize := ⟨2 ^ 32 - 1, by norm_num⟩

/-- The `Handle` trait of `src/handle.rs`: construction from an index
(`fn new`) and index projection (`fn idx`).  The two laws record that
the handle types generated by `make_handle_type!` are plain wrappers
around one `hsize` (struct `$name(hsize)`). -/
class IsHandle (H : Type) where
  new : hsize → H
  idx : H → hsize
  idx_new : ∀ i, idx (new i) = i
  new_idx : ∀ h, new (idx h) = h

/-- `VertexHandle` from `make_handle_type!` in `src/handle.rs`. -/
structure VertexHandle where
  idx : hsize
deriving DecidableEq

/-- `FaceHandle` from `make_handle_type!` in `src/handle.rs`. -/
structure FaceHandle where
  idx : hsize
deriving DecidableEq

/-- `EdgeHandle` from `make_handle_type!` in `src/handle.rs`. -/
structure EdgeHandle where
  idx : hsize
deriving DecidableEq

instance : IsHandle VertexHandle :=
  ⟨VertexHandle.mk, VertexHandle.idx, fun _ => rfl, fun _ => rfl⟩

instance : IsHandle FaceHandle :=
  ⟨FaceHandle.mk, FaceHandle.idx, fun _ => rfl, fun _ => rfl⟩

instance : IsHandle EdgeHandle :=
  ⟨EdgeHandle.mk, EdgeHandle.idx, fun _ => rfl, fun _ => rfl⟩

/-- The space-efficient optional handle `pub struct Opt<H: Handle>(H)`
of `src/handle.rs`: it stores exactly one handle, using the index
`hsize::max_value()` as the `None` encoding. -/
structure Opt (H : Type) where
  val : H

/-- `Opt::none()`: wraps `H::new(hsize::max_value())`. -/
def Opt.none (H : Type) [IsHandle H] : Opt H := ⟨IsHandle.new hsizeMax⟩

/-- `Opt::some(handle)`: wraps the handle unchanged. -/
def Opt.some {H : Type} (handle : H) : Opt H := ⟨handle⟩

/-- `Opt::is_none()`: `self.0.idx() == hsize::max_value()`. -/
def Opt.is_none {H : Type} [IsHandle H] (o : Opt H) : Bool :=
  IsHandle.idx o.val = hsizeMax

/-- `Opt::is_some()`: `!self.is_none()`. -/
def Opt.is_some {H : Type} [IsHandle H] (o : Opt H) : Bool :=
  ! o.is_none

/-- `Opt::to_option()`: `None` if `is_none`, else `Some` of the stored
handle. -/
def Opt.to_option {H : Type} [IsHandle H] (o : Opt H) : Option H :=
  if o.is_none then Option.none else Option.some o.val

/-- `Opt::unwrap()`: panics (modelled as `Option.none`) if `is_none`,
else returns the stored handle. -/
def Opt.unwrap {H : Type} [IsHandle H] (o : Opt H) : Option H :=
  if o.is_none then Option.none else Option.some o.val

end Hdl

namespace Hdl

/-- **C7.** The optional handle wrapper `Opt<H>` round-trips with
`Option<H>` under the sentinel precondition: `Opt::none().to_option()`
is `None`; for every handle whose index is not `2^32 - 1`,
`Opt::some(h).to_option() = Some(h)`, `Opt::some(h).is_some()` holds and
`Opt::some(h).unwrap() = h`; and the wrapper has the same representation
as the handle itself (`Opt::some` is a bijection between handles and
wrapper values). -/
theorem c7_opt_roundtrip (H : Type) [IsHandle H] :
    (Opt.none H).to_option = Option.none ∧
    (∀ h : H, IsHandle.idx h ≠ hsizeMax →
      (Opt.some h).to_option = Option.some h ∧
      (Opt.some h).is_some = true ∧
      (Opt.some h).unwrap = Option.some h) ∧
    Function.Bijective (Opt.some : H → Opt H) := by
  refine ⟨?_, fun h hs => ?_, ?_, ?_⟩
  · simp [Opt.to_option, Opt.is_none, Opt.none, IsHandle.idx_new]
  · have hn : (Opt.mk h : Opt H).is_none = false := by
      simp [Opt.is_none, hs]
    refine ⟨?_, ?_, ?_⟩ <;>
      simp [Opt.to_option, Opt.is_some, Opt.unwrap, Opt.some, hn]
  · exact fun a b hab => congrArg Opt.val hab
  · exact fun o => ⟨o.val, rfl⟩

/-- Witness for `c7_opt_roundtrip`: the vertex handle with index 5. -/
theorem c7_opt_roundtrip_witness :
    (Opt.none VertexHandle).to_option = Option.none ∧
    ((Opt.some (VertexHandle.mk ⟨5, by norm_num⟩)).to_option
        = Option.some (VertexHandle.mk ⟨5, by norm_num⟩) ∧
      (Opt.some (VertexHandle.mk ⟨5, by norm_num⟩)).is_some = true ∧
      (Opt.some (VertexHandle.mk ⟨5, by norm_num⟩)).unwrap
        = Option.some (VertexHandle.mk ⟨5, by norm_num⟩)) ∧
    Function.Bijective (Opt.some : VertexHandle → Opt VertexHandle) :=
  ⟨(c7_opt_roundtrip VertexHandle).1,
   (c7_opt_roundtrip VertexHandle).2.1 (VertexHandle.mk ⟨5, by norm_num⟩)
     (by decide),
   (c7_opt_roundtrip VertexHandle).2.2⟩

/-- **C10.** For a handle whose index equals the reserved sentinel
`2^32 - 1`, `Opt::some(h)` is indistinguishable from `Opt::none()`:
`is_some()` is false, `to_option()` is `None`, `unwrap()` panics, and
the wrapper value equals `Opt::none()` itself — a present handle with the
sentinel index cannot be represented. -/
theorem c10_sentinel_collapse (H : Type) [IsHandle H] (h : H)
    (hs : IsHandle.idx h = hsizeMax) :
    (Opt.some h).is_some = false ∧
    (Opt.some h).to_option = Option.none ∧
    (Opt.some h).unwrap = Option.none ∧
    Opt.some h = Opt.none H := by
  have hn : (Opt.some h).is_none = true := by
    simp [Opt.is_none, Opt.some, hs]
  refine ⟨?_, ?_, ?_, ?_⟩
  · simp [Opt.is_some, hn]
  · simp [Opt.to_option, hn]
  · simp [Opt.unwrap, hn]
  · show Opt.mk h = Opt.mk (IsHandle.new hsizeMax)
    rw [← hs, IsHandle.new_idx]

/-- Witness for `c10_sentinel_collapse`: the vertex handle with the
sentinel index `2^32 - 1`. -/
theorem c10_sentinel_collapse_witness :
    (Opt.some (VertexHandle.mk hsizeMax)).is_some = false ∧
    (Opt.some (VertexHandle.mk hsizeMax)).to_option = Option.none ∧
    (Opt.some (VertexHandle.mk hsizeMax)).unwrap = Option.none ∧
    Opt.some (VertexHandle.mk hsizeMax) = Opt.none VertexHandle :=
  c10_sentinel_collapse VertexHandle (VertexHandle.mk hsizeMax) rfl

end Hdl

namespace SVM

/-- Modelled from the spec: the dense vector-backed property map
`VecMap` (its implementation `src/map/vec_map.rs` is not among the
provided sources; `src/map/mod.rs` only declares the traits).  Per the
spec it is "a dense array indexed by the handle's integer"; pushing
appends at the next index, so handles are minted in monotonically
increasing order; removal leaves a hole; handles are plain indices
(embedded as `Nat`; the meshes of these claims never exhaust the 32-bit
index space). -/
structure VecMap (α : Type) where
  entries : List (Option α)
deriving DecidableEq

/-- An empty `VecMap`. -/
def VecMap.empty {α : Type} : VecMap α := ⟨[]⟩

/-- `VecMap::next_push_handle`: the index the next push will use. -/
def VecMap.nextPushHandle {α : Type} (m : VecMap α) : Nat :=
  m.entries.length

/-- `VecMap::push`: append a value at the next index and return the
minted handle. -/
def VecMap.push {α : Type} (m : VecMap α) (v : α) : VecMap α × Nat :=
  (⟨m.entries ++ [some v]⟩, m.entries.length)

/-- `VecMap::contains_handle`. -/
def VecMap.containsHandle {α : Type} (m : VecMap α) (h : Nat) : Bool :=
  (m.entries.getD h none).isSome

/-- Lookup of the value stored at a handle. -/
def VecMap.get {α : Type} (m : VecMap α) (h : Nat) : Option α :=
  m.entries.getD h none

/-- `VecMap::num_elements`: the number of live (non-removed) entries. -/
def VecMap.numElements {α : Type} (m : VecMap α) : Nat :=
  (m.entries.filter Option.isSome).length

/-- `VecMap::remove`: turn the slot into a hole. -/
def VecMap.remove {α : Type} (m : VecMap α) (h : Nat) : VecMap α :=
  ⟨m.entries.set h none⟩

/-- Overwrite the value stored at a live handle (`self.faces[f] = ...`). -/
def VecMap.setVal {α : Type} (m : VecMap α) (h : Nat) (v : α) : VecMap α :=
  ⟨m.entries.set h (some v)⟩

/-- `VecMap::clear`. -/
def VecMap.clear {α : Type} (_m : VecMap α) : VecMap α := ⟨[]⟩

/-- `SharedVertexMesh` from `src/ds/shared_vertex.rs`: vertices are a
`VecMap<VertexHandle, ()>`, faces a
`VecMap<FaceHandle, [VertexHandle; 3]>`. -/
structure SharedVertexMesh where
  vertices : VecMap Unit
  faces : VecMap (Nat × Nat × Nat)
deriving DecidableEq

/-- The `#[derive(Empty)]` empty mesh. -/
def SharedVertexMesh.empty : SharedVertexMesh :=
  ⟨VecMap.empty, VecMap.empty⟩

/-- `Mesh::num_vertices`. -/
def num_vertices (m : SharedVertexMesh) : Nat := m.vertices.numElements

/-- `Mesh::num_faces`. -/
def num_faces (m : SharedVertexMesh) : Nat := m.faces.numElements

/-- `Mesh::contains_vertex`. -/
def contains_vertex (m : SharedVertexMesh) (v : Nat) : Bool :=
  m.vertices.containsHandle v

/-- `MeshMut::add_vertex` of `src/ds/shared_vertex.rs`:
`self.vertices.push(())`. -/
def add_vertex (m : SharedVertexMesh) : SharedVertexMesh × Nat :=
  let p := m.vertices.push ()
  ({ m with vertices := p.1 }, p.2)

/-- `MeshMut::add_triangle` of `src/ds/shared_vertex.rs` (lines
105-113).  The source asserts, in order: `contains_handle(va)`,
`contains_handle(vb)`, `contains_handle(vc)`, `va != vb`, `va != vc`
— and then pushes `[va, vb, vc]`.  (There is no `vb != vc` assert.)
A failed assert panics, embedded as `none`. -/
def add_triangle (m : SharedVertexMesh) (va vb vc : Nat) :
    Option (SharedVertexMesh × Nat) :=
  if m.vertices.containsHandle va && m.vertices.containsHandle vb &&
     m.vertices.containsHandle vc && (va != vb) && (va != vc) then
    let p := m.faces.push (va, vb, vc)
    some ({ m with faces := p.1 }, p.2)
  else
    none

/-- `MeshMut::remove_face`: `self.faces.remove(face)`. -/
def remove_face (m : SharedVertexMesh) (f : Nat) : SharedVertexMesh :=
  { m with faces := m.faces.remove f }

/-- `MeshMut::remove_all_vertices` of `src/ds/shared_vertex.rs` (lines
119-126): asserts `num_faces() == 0` (panic embedded as `none`), then
clears the vertex map. -/
def remove_all_vertices (m : SharedVertexMesh) : Option SharedVertexMesh :=
  if num_faces m = 0 then
    some { m with vertices := m.vertices.clear }
  else
    none

/-- `MeshMut::remove_all_faces`: `self.faces.clear()`. -/
def remove_all_faces (m : SharedVertexMesh) : SharedVertexMesh :=
  { m with faces := m.faces.clear }

/-- `MeshMut::split_face` of `src/ds/shared_vertex.rs` (lines 132-140):
reads `self.faces[f]` (a panic on an absent face, embedded as `none`),
adds a center vertex, overwrites `f` with `[va, vb, center]` and pushes
`[vb, vc, center]` and `[vc, va, center]`. -/
def split_face (m : SharedVertexMesh) (f : Nat) :
    Option (SharedVertexMesh × Nat) :=
  match m.faces.get f with
  | none => none
  | some (va, vb, vc) =>
      let p := add_vertex m
      let m1 := p.1
      let center := p.2
      let fs1 := m1.faces.setVal f (va, vb, center)
      let fs2 := (fs1.push (vb, vc, center)).1
      let fs3 := (fs2.push (vc, va, center)).1
      some ({ m1 with faces := fs3 }, center)

/-- `Mesh::check_integrity` of `src/ds/shared_vertex.rs` (lines 87-97):
for every live face, its three vertices must be contained in the vertex
map and pairwise distinct (`va == vb || va == vc || vb == vc` panics
with "bug: vertices of face are not unique").  A panic is embedded as
`false`. -/
def check_integrity (m : SharedVertexMesh) : Bool :=
  m.faces.entries.all fun e =>
    match e with
    | none => true
    | some (va, vb, vc) =>
        m.vertices.containsHandle va && m.vertices.containsHandle vb &&
        m.vertices.containsHandle vc &&
        !(va == vb || va == vc || vb == vc)

/-- The mesh obtained from the empty `SharedVertexMesh` by two
`add_vertex` calls followed by `add_triangle([v0, v1, v1])`. -/
def c3FailingRun : Option (SharedVertexMesh × Nat) :=
  add_triangle (add_vertex (add_vertex SharedVertexMesh.empty).1).1 0 1 1

end SVM

namespace SVM

/-- The mesh after `n` `add_vertex` calls on the empty
`SharedVertexMesh`. -/
def addVertexIter : Nat → SharedVertexMesh
  | 0 => SharedVertexMesh.empty
  | n + 1 => (add_vertex (addVertexIter n)).1

/-- A sequence of `add_triangle` calls, returning the final mesh and the
minted face handles (`none` as soon as one call panics). -/
def add_triangles :
    SharedVertexMesh → List (Nat × Nat × Nat) →
      Option (SharedVertexMesh × List Nat)
  | m, [] => some (m, [])
  | m, t :: ts =>
      match add_triangle m t.1 t.2.1 t.2.2 with
      | none => none
      | some p =>
          match add_triangles p.1 ts with
          | none => none
          | some q => some (q.1, p.2 :: q.2)

end SVM

namespace SVM

/-- **C3.** The claim — every face of a mesh reachable by successful
operations has three existing, pairwise distinct vertices — is violated
by `add_triangle` itself: it asserts `va != vb` and `va != vc` but not
`vb != vc` (`src/ds/shared_vertex.rs` lines 105-113), so
`add_triangle([v0, v1, v1])` succeeds without panicking and creates a
face with a repeated vertex, which the mesh's own `check_integrity`
(lines 87-97) then calls a bug.  This theorem evaluates the code at the
failing input. -/
theorem c3_add_triangle_missing_unique_assert :
    c3FailingRun.isSome = true ∧
    (c3FailingRun.map fun r => r.1.faces.get r.2) = some (some (0, 1, 1)) ∧
    (c3FailingRun.map fun r => check_integrity r.1) = some false := by
  decide

/-- Length of the vertex vector after `n` pushes. -/
theorem addVertexIter_len (n : Nat) :
    (addVertexIter n).vertices.entries.length = n := by
  induction n with
  | zero => rfl
  | succ n ih =>
      simp [addVertexIter, add_vertex, VecMap.push, ih]

/-- `add_vertex` does not touch the face vector. -/
theorem addVertexIter_faces (n : Nat) :
    (addVertexIter n).faces = VecMap.empty := by
  induction n with
  | zero => rfl
  | succ n ih => simpa [addVertexIter, add_vertex] using ih

/-- When `add_triangle` succeeds it returns the next face index and
grows the face vector by one. -/
theorem add_triangle_handle (m : SharedVertexMesh) (va vb vc : Nat)
    (p : SharedVertexMesh × Nat) (h : add_triangle m va vb vc = some p) :
    p.2 = m.faces.entries.length ∧
    p.1.faces.entries.length = m.faces.entries.length + 1 := by
  unfold add_triangle at h
  split at h
  · obtain rfl : _ = p := Option.some.inj h
    simp [VecMap.push]
  · exact absurd h (by simp)

/-- Face handles minted by a successful `add_triangle` sequence are the
consecutive indices starting at the current face-vector length. -/
theorem add_triangles_handles :
    ∀ (ts : List (Nat × Nat × Nat)) (m m' : SharedVertexMesh)
      (fs : List Nat),
      add_triangles m ts = some (m', fs) →
      fs = List.range' m.faces.entries.length ts.length := by
  intro ts
  induction ts with
  | nil =>
      intro m m' fs h
      obtain ⟨rfl, rfl⟩ : m = m' ∧ [] = fs := by
        simpa [add_triangles] using h
      simp [List.range']
  | cons t ts ih =>
      intro m m' fs h
      unfold add_triangles at h
      rcases ht : add_triangle m t.1 t.2.1 t.2.2 with _ | p <;>
        rw [ht] at h <;> dsimp only at h
      · exact absurd h (by simp)
      · rcases hq : add_triangles p.1 ts with _ | q <;>
          rw [hq] at h <;> dsimp only at h
        · exact absurd h (by simp)
        · obtain ⟨rfl, rfl⟩ : q.1 = m' ∧ p.2 :: q.2 = fs := by
            simpa using h
          obtain ⟨h1, h2⟩ := add_triangle_handle m t.1 t.2.1 t.2.2 p ht
          have := ih p.1 q.1 q.2 (by rw [hq])
          rw [h2] at this
          simp [List.range', h1, this]

/-- **C5.** Handles are minted in monotonically increasing index order:
the `(k+1)`-st `add_vertex` call on an empty `SharedVertexMesh` returns
the vertex handle with index `k`, and a successful sequence of
`add_triangle` calls on a mesh freshly populated by `add_vertex` returns
the face handles `0, 1, 2, ...` in order — so the k-th element in file
order deterministically receives the k-th minted handle. -/
theorem c5_handles_monotonic :
    (∀ k : Nat, (add_vertex (addVertexIter k)).2 = k) ∧
    (∀ (n : Nat) (ts : List (Nat × Nat × Nat)) (m' : SharedVertexMesh)
       (fs : List Nat),
       add_triangles (addVertexIter n) ts = some (m', fs) →
       fs = List.range ts.length) := by
  constructor
  · intro k
    show (addVertexIter k).vertices.entries.length = k
    exact addVertexIter_len k
  · intro n ts m' fs h
    have := add_triangles_handles ts (addVertexIter n) m' fs h
    rw [addVertexIter_faces] at this
    simpa [List.range_eq_range'] using this

/-- Witness for `c5_handles_monotonic`: the fifth `add_vertex` call
returns handle 4, and one successful `add_triangle` on a three-vertex
mesh returns face handle 0. -/
theorem c5_handles_monotonic_witness :
    (add_vertex (addVertexIter 4)).2 = 4 ∧ ([0] : List Nat) = List.range 1 :=
  ⟨c5_handles_monotonic.1 4,
   c5_handles_monotonic.2 3 [(0, 1, 2)]
     ⟨⟨[some (), some (), some ()]⟩, ⟨[some (0, 1, 2)]⟩⟩ [0] (by decide)⟩

/-- **C6.** `remove_all_vertices` succeeds exactly when the face set is
empty, in which case the vertex map is cleared (`num_vertices = 0`); a
mesh with at least one face makes the call panic (embedded as `none`),
the assert firing before any mutation. -/
theorem c6_remove_all_vertices_guard (m : SharedVertexMesh) :
    ((remove_all_vertices m).isSome ↔ num_faces m = 0) ∧
    (∀ m', remove_all_vertices m = some m' → num_vertices m' = 0) ∧
    (num_faces m ≠ 0 → remove_all_vertices m = none) := by
  unfold remove_all_vertices
  by_cases h : num_faces m = 0
  · refine ⟨by simp [h], fun m' hm' => ?_, fun hn => absurd h hn⟩
    rw [if_pos h] at hm'
    obtain rfl := Option.some.inj hm'
    simp [num_vertices, VecMap.clear, VecMap.numElements]
  · refine ⟨by simp [h], fun m' hm' => ?_, fun _ => by simp [h]⟩
    rw [if_neg h] at hm'
    exact absurd hm' (by simp)

/-- Witness for `c6_remove_all_vertices_guard`: clearing a one-vertex
mesh with no faces succeeds with zero vertices left; a triangle mesh
with one face refuses. -/
theorem c6_remove_all_vertices_guard_witness :
    num_vertices ⟨⟨[]⟩, ⟨[]⟩⟩ = 0 ∧
    remove_all_vertices ⟨⟨[some (), some (), some ()]⟩, ⟨[some (0, 1, 2)]⟩⟩
      = none :=
  ⟨(c6_remove_all_vertices_guard ⟨⟨[some ()]⟩, ⟨[]⟩⟩).2.1 ⟨⟨[]⟩, ⟨[]⟩⟩
     (by decide),
   (c6_remove_all_vertices_guard
     ⟨⟨[some (), some (), some ()]⟩, ⟨[some (0, 1, 2)]⟩⟩).2.2 (by decide)⟩

end SVM

namespace Stl

/-- A model of IEEE-754 binary32 values for the face-normal computation
of `src/fev-io/src/stl/write.rs`.  A finite float is represented by the
exact rational it denotes (`fin 0` denotes `+0.0`); the special values
`+∞`, `-∞` and NaN are explicit.  Arithmetic on finite values is taken
exact, which is faithful for computations whose real results are
representable — in particular for the degenerate-face path below, where
every intermediate value is `0`, `1`, `+∞` or NaN.  Square roots that are
not exactly representable are outside the model (`Option`). -/
inductive FVal where
  | fin (q : ℚ)
  | inf
  | neginf
  | nan
deriving DecidableEq, Repr

namespace FVal

/-- IEEE negation. -/
def neg : FVal → FVal
  | fin q => fin (-q)
  | inf => neginf
  | neginf => inf
  | nan => nan

/-- IEEE addition (finite part exact). -/
def add : FVal → FVal → FVal
  | nan, _ => nan
  | _, nan => nan
  | inf, neginf => nan
  | neginf, inf => nan
  | inf, _ => inf
  | _, inf => inf
  | neginf, _ => neginf
  | _, neginf => neginf
  | fin a, fin b => fin (a + b)

/-- IEEE subtraction: `a + (-b)`. -/
def sub (a b : FVal) : FVal := add a (neg b)

/-- IEEE multiplication (finite part exact); `0 * ±∞` is NaN. -/
def mul : FVal → FVal → FVal
  | nan, _ => nan
  | _, nan => nan
  | inf, inf => inf
  | inf, neginf => neginf
  | neginf, inf => neginf
  | neginf, neginf => inf
  | inf, fin b => if b = 0 then nan else if 0 < b then inf else neginf
  | fin a, inf => if a = 0 then nan else if 0 < a then inf else neginf
  | neginf, fin b => if b = 0 then nan else if 0 < b then neginf else inf
  | fin a, neginf => if a = 0 then nan else if 0 < a then neginf else inf
  | fin a, fin b => fin (a * b)

/-- IEEE division (finite part exact); `x / +0` is `±∞` for `x ≠ 0` and
NaN for `x = 0` (the model's `fin 0` is `+0.0`). -/
def div : FVal → FVal → FVal
  | nan, _ => nan
  | _, nan => nan
  | inf, inf => nan
  | inf, neginf => nan
  | neginf, inf => nan
  | neginf, neginf => nan
  | inf, fin b => if 0 ≤ b then inf else neginf
  | neginf, fin b => if 0 ≤ b then neginf else inf
  | fin _, inf => fin 0
  | fin _, neginf => fin 0
  | fin a, fin b =>
      if b = 0 then
        if a = 0 then nan else if 0 < a then inf else neginf
      else fin (a / b)

/-- IEEE square root, where representable: `sqrt` of a negative value is
NaN, `sqrt(+0)` is `+0`; positive roots are in general irrational and
lie outside the exact model (`none`). -/
def sqrt? : FVal → Option FVal
  | nan => some nan
  | inf => some inf
  | neginf => some nan
  | fin q =>
      if q < 0 then some nan
      else if q = 0 then some (fin 0)
      else none

end FVal

/-- A 3-vector of model floats. -/
abbrev Vec3 : Type := FVal × FVal × FVal

/-- Componentwise subtraction (`pb - pa` on `cgmath` points). -/
def vsub (a b : Vec3) : Vec3 :=
  (a.1.sub b.1, (a.2.1).sub b.2.1, (a.2.2).sub b.2.2)

/-- The `cgmath` cross product
`(a.y*b.z - a.z*b.y, a.z*b.x - a.x*b.z, a.x*b.y - a.y*b.x)`. -/
def cross (a b : Vec3) : Vec3 :=
  ((a.2.1.mul b.2.2).sub (a.2.2.mul b.2.1),
   (a.2.2.mul b.1).sub (a.1.mul b.2.2),
   (a.1.mul b.2.1).sub (a.2.1.mul b.1))

/-- The `cgmath` dot product. -/
def dot (a b : Vec3) : FVal :=
  ((a.1.mul b.1).add (a.2.1.mul b.2.1)).add (a.2.2.mul b.2.2)

/-- Scalar scaling of a vector. -/
def vscale (v : Vec3) (s : FVal) : Vec3 :=
  (v.1.mul s, v.2.1.mul s, v.2.2.mul s)

/-- `cgmath` `magnitude`: `sqrt(self.dot(self))`. -/
def magnitude (v : Vec3) : Option FVal := (dot v v).sqrt?

/-- `cgmath` `normalize`: `self.normalize_to(S::one())`, i.e.
`self * (1 / self.magnitude())`. -/
def normalize (v : Vec3) : Option Vec3 :=
  (magnitude v).map fun m => vscale v ((FVal.fin 1).div m)

/-- The zero vector (`+0.0` components). -/
def zeroVec : Vec3 := (.fin 0, .fin 0, .fin 0)

/-- The all-NaN vector. -/
def nanVec : Vec3 := (.nan, .nan, .nan)

/-- `CalculateFaceNormals::get` of `src/fev-io/src/stl/write.rs` (lines
50-70), with the three vertex positions already fetched from the
position map:
`(pb - pa).cross(pc - pa).cast::<f32>().unwrap().normalize()`
(the `cast::<f32>()` is the identity on `f32` positions). -/
def calculateFaceNormal (pa pb pc : Vec3) : Option Vec3 :=
  normalize (cross (vsub pb pa) (vsub pc pa))

end Stl

namespace Stl

/-- **C4 (amended).** When the STL writer is given no face-normal map it
emits the normal `normalize((p1 - p0) × (p2 - p0))`; there is no
special case for degenerate faces, so for every face whose cross product
is exactly the zero vector the normalization divides zero by zero and
the emitted normal components are all NaN — not the zero normal
`(0, 0, 0)` the claim states. -/
theorem c4_degenerate_normal_is_nan (pa pb pc : Vec3)
    (h : cross (vsub pb pa) (vsub pc pa) = zeroVec) :
    calculateFaceNormal pa pb pc = some nanVec := by
  unfold calculateFaceNormal
  rw [h]
  norm_num [normalize, magnitude, dot, vscale, zeroVec, nanVec,
    FVal.mul, FVal.add, FVal.div, FVal.sqrt?]

/-- Counterexample for **C4** as stated: the degenerate (collinear) face
with positions `(0,0,0)`, `(1,0,0)`, `(2,0,0)` — its cross product has
zero length — is emitted with the NaN normal, not the zero normal. -/
theorem c4_degenerate_zero_normal_counterexample :
    calculateFaceNormal (.fin 0, .fin 0, .fin 0) (.fin 1, .fin 0, .fin 0)
        (.fin 2, .fin 0, .fin 0) = some nanVec ∧
    calculateFaceNormal (.fin 0, .fin 0, .fin 0) (.fin 1, .fin 0, .fin 0)
        (.fin 2, .fin 0, .fin 0) ≠ some zeroVec := by
  constructor
  · norm_num [calculateFaceNormal, normalize, magnitude, dot, cross, vsub,
      vscale, nanVec, FVal.mul, FVal.add, FVal.sub, FVal.neg, FVal.div,
      FVal.sqrt?]
  · norm_num [calculateFaceNormal, normalize, magnitude, dot, cross, vsub,
      vscale, zeroVec, FVal.mul, FVal.add, FVal.sub, FVal.neg, FVal.div,
      FVal.sqrt?]
    decide

/-- Witness for `c4_degenerate_normal_is_nan` at the collinear face
`(0,0,0)`, `(1,0,0)`, `(2,0,0)`. -/
theorem c4_degenerate_normal_is_nan_witness :
    calculateFaceNormal (.fin 0, .fin 0, .fin 0) (.fin 1, .fin 0, .fin 0)
      (.fin 2, .fin 0, .fin 0) = some nanVec :=
  c4_degenerate_normal_is_nan (.fin 0, .fin 0, .fin 0)
    (.fin 1, .fin 0, .fin 0) (.fin 2, .fin 0, .fin 0)
    (by norm_num [cross, vsub, zeroVec, FVal.mul, FVal.add, FVal.sub,
       FVal.neg])

end Stl

namespace Conv

/-- A `failure::Error` as observed by `main` in
`src/tools/convert/src/main.rs`: its display message and the display
messages of its causes, in the order `iter_causes()` yields them. -/
structure AppError where
  msg : String
  causes : List String
deriving DecidableEq, Repr

/-- The observable outcome of a `convert` process run: exit code and the
lines printed to stdout and to stderr. -/
structure CliOutcome where
  exitCode : Nat
  stdout : List String
  stderr : List String
deriving DecidableEq, Repr

/-- The error-chain lines printed by `main` on a fatal error
(`src/tools/convert/src/main.rs` lines 44-49): the error, then one line
per cause. -/
def chainLines (e : AppError) : List String :=
  ("An error occured: " ++ e.msg) ::
    e.causes.map (fun c => "  ... caused by: " ++ c)

/-- `main` of `src/tools/convert/src/main.rs` (lines 43-58).  `run()` is
abstracted by its result and by the stdout lines it printed before
returning.  On `Err(e)` main prints — with `println!`, hence to stdout —
the error-chain lines, then (only when the environment has
`RUST_BACKTRACE=1`, abstracted as `bt = some text`) an empty line and
the backtrace, and exits with code 1; on `Ok` it exits with code 0.
Nothing is ever written to stderr. -/
def mainModel (runResult : Except AppError Unit) (runOut : List String)
    (bt : Option String) : CliOutcome :=
  match runResult with
  | .ok _ => { exitCode := 0, stdout := runOut, stderr := [] }
  | .error e =>
      { exitCode := 1
        stdout := runOut ++ chainLines e ++
          (match bt with
           | some t => ["", t]
           | none => [])
        stderr := [] }

end Conv

namespace Conv

/-- Counterexample for **C9** as stated: on the fatal error
"could not read source file" (caused by "failed to open file") the
process exits with code 1 but prints nothing at all to stderr — the
nonempty multi-cause chain goes to stdout via `println!`. -/
theorem c9_stderr_counterexample :
    (mainModel
      (.error ⟨"could not read source file", ["failed to open file"]⟩)
      [] none).exitCode = 1 ∧
    (mainModel
      (.error ⟨"could not read source file", ["failed to open file"]⟩)
      [] none).stderr = [] ∧
    chainLines ⟨"could not read source file", ["failed to open file"]⟩
      ≠ [] ∧
    (mainModel
      (.error ⟨"could not read source file", ["failed to open file"]⟩)
      [] none).stdout =
      chainLines ⟨"could not read source file", ["failed to open file"]⟩ := by
  refine ⟨rfl, rfl, by simp [chainLines], rfl⟩

/-- **C9 (amended).** The convert CLI exits with code 0 on success and
with code 1 on any fatal error, and on a fatal error it prints the
multi-cause error chain (the error followed by each of its causes) to
stdout — not stderr, which receives nothing. -/
theorem c9_exit_codes_and_chain (r : Except AppError Unit)
    (out : List String) (bt : Option String) :
    (∀ u, r = .ok u → mainModel r out bt = ⟨0, out, []⟩) ∧
    (∀ e, r = .error e →
      (mainModel r out bt).exitCode = 1 ∧
      (mainModel r out bt).stderr = [] ∧
      (mainModel r out bt).stdout =
        out ++ chainLines e ++
          (match bt with
           | some t => ["", t]
           | none => [])) := by
  constructor
  · rintro u rfl; rfl
  · rintro e rfl; exact ⟨rfl, rfl, rfl⟩

/-- Witness for `c9_exit_codes_and_chain`: a successful run exits 0; the
failing run with one cause exits 1 with its chain on stdout. -/
theorem c9_exit_codes_and_chain_witness :
    mainModel (.ok ()) ["done"] none = ⟨0, ["done"], []⟩ ∧
    ((mainModel (.error ⟨"boom", ["io"]⟩) [] none).exitCode = 1 ∧
     (mainModel (.error ⟨"boom", ["io"]⟩) [] none).stderr = [] ∧
     (mainModel (.error ⟨"boom", ["io"]⟩) [] none).stdout =
       [] ++ chainLines ⟨"boom", ["io"]⟩ ++
         (match (none : Option String) with
          | some t => ["", t]
          | none => [])) :=
  ⟨(c9_exit_codes_and_chain (.ok ()) ["done"] none).1 () rfl,
   (c9_exit_codes_and_chain (.error ⟨"boom", ["io"]⟩) [] none).2
     ⟨"boom", ["io"]⟩ rfl⟩

end Conv

namespace Ply

/-! The PLY writer and raw reader are modelled from the spec: their
implementation (`src/io/ply/write.rs`, `src/io/ply/read.rs`) is not
among the provided sources — only their tests (`src/io/ply/tests.rs`)
are.  Files are byte lists (`List Nat`, each element `< 256`); the
header is line-oriented ASCII per the spec's grammar; binary bodies are
packed little- or big-endian records; ASCII bodies are one
whitespace-separated record per line. -/

/-- Decimal digits of `n`, least significant first, with explicit fuel
(`fuel ≥ n` suffices). -/
def decDigits : Nat → Nat → List Nat
  | 0, _ => []
  | fuel + 1, n => if n = 0 then [] else n % 10 :: decDigits fuel (n / 10)

/-- The ASCII decimal numeral of `n` (most significant digit first). -/
def natDecimal (n : Nat) : List Nat :=
  if n = 0 then [48] else (decDigits n n).reverse.map (fun d => d + 48)

/-- Value of a digit list, least significant digit first. -/
def digitsValRev : List Nat → Nat
  | [] => 0
  | d :: ds => d + 10 * digitsValRev ds

/-- Value of a digit list, most significant digit first (the token
order). -/
def digitsVal (ds : List Nat) : Nat := digitsValRev ds.reverse

/-- ASCII decimal digit test. -/
def isDigit (b : Nat) : Bool := 48 ≤ b && b ≤ 57

/-- Parse an unsigned ASCII decimal token. -/
def parseNat (tok : List Nat) : Option Nat :=
  if !tok.isEmpty && tok.all isDigit then
    some (digitsVal (tok.map (fun b => b - 48)))
  else
    none

/-- `k` little-endian bytes of `n`. -/
def leBytes : Nat → Nat → List Nat
  | 0, _ => []
  | k + 1, n => n % 256 :: leBytes k (n / 256)

/-- Value of a little-endian byte list. -/
def fromLE : List Nat → Nat
  | [] => 0
  | b :: bs => b + 256 * fromLE bs

/-- `k` big-endian bytes of `n`. -/
def beBytes (k n : Nat) : List Nat := (leBytes k n).reverse

/-- Value of a big-endian byte list. -/
def fromBE (bs : List Nat) : Nat := fromLE bs.reverse

/-- Split a byte line at the first newline: returns the line (without
the newline) and the remaining bytes; `none` if no newline remains
(unexpected EOF). -/
def parseLine : List Nat → Option (List Nat × List Nat)
  | [] => none
  | b :: rest =>
      if b = 10 then some ([], rest)
      else (parseLine rest).map (fun p => (b :: p.1, p.2))

/-- Split a line into separator-delimited chunks. -/
def splitSep (sep : Nat) : List Nat → List (List Nat)
  | [] => [[]]
  | b :: rest =>
      match splitSep sep rest with
      | [] => [[]]
      | c :: cs => if b = sep then [] :: c :: cs else (b :: c) :: cs

/-- Join chunks with a separator byte. -/
def joinSep (sep : Nat) : List (List Nat) → List Nat
  | [] => []
  | [t] => t
  | t :: ts => t ++ sep :: joinSep sep ts

end Ply

namespace Ply

/-- Digits produced by `decDigits` are below 10. -/
theorem decDigits_lt_ten :
    ∀ (fuel n : Nat), ∀ d ∈ decDigits fuel n, d < 10 := by
  intro fuel
  induction fuel with
  | zero => intro n d hd; simp [decDigits] at hd
  | succ f ih =>
      intro n d hd
      by_cases h0 : n = 0
      · simp [decDigits, h0] at hd
      · rw [decDigits, if_neg h0] at hd
        rcases List.mem_cons.mp hd with h | h
        · subst h; omega
        · exact ih _ _ h

/-- `decDigits` with enough fuel reconstructs its input. -/
theorem digitsValRev_decDigits :
    ∀ (fuel n : Nat), n ≤ fuel → digitsValRev (decDigits fuel n) = n := by
  intro fuel
  induction fuel with
  | zero => intro n h; interval_cases n; rfl
  | succ f ih =>
      intro n h
      by_cases h0 : n = 0
      · simp [decDigits, h0, digitsValRev]
      · rw [decDigits, if_neg h0]
        rw [digitsValRev, ih (n / 10) (by omega)]
        omega

/-- `decDigits` of a nonzero value is nonempty. -/
theorem decDigits_ne_nil (fuel n : Nat) (h0 : n ≠ 0) (hf : 1 ≤ fuel) :
    decDigits fuel n ≠ [] := by
  cases fuel with
  | zero => omega
  | succ f => rw [decDigits, if_neg h0]; simp

/-- Every byte of a decimal numeral is an ASCII digit. -/
theorem natDecimal_bytes (n : Nat) :
    ∀ b ∈ natDecimal n, 48 ≤ b ∧ b ≤ 57 := by
  intro b hb
  unfold natDecimal at hb
  by_cases h0 : n = 0
  · rw [if_pos h0] at hb
    simp at hb
    omega
  · rw [if_neg h0] at hb
    obtain ⟨d, hd, rfl⟩ := List.mem_map.mp hb
    have := decDigits_lt_ten n n d (List.mem_reverse.mp hd)
    omega

/-- Decimal numerals parse back to their value. -/
theorem parseNat_natDecimal (n : Nat) : parseNat (natDecimal n) = some n := by
  by_cases h0 : n = 0
  · subst h0; rfl
  · have hne : natDecimal n ≠ [] := by
      unfold natDecimal
      rw [if_neg h0]
      simp only [ne_eq, List.map_eq_nil_iff, List.reverse_eq_nil_iff]
      exact decDigits_ne_nil n n h0 (by omega)
    have hdig : (natDecimal n).all isDigit = true := by
      rw [List.all_eq_true]
      intro b hb
      have := natDecimal_bytes n b hb
      simp only [isDigit, Bool.and_eq_true, decide_eq_true_eq]
      omega
    unfold parseNat
    rw [if_pos (by simp [hdig, List.isEmpty_iff, hne])]
    congr 1
    unfold natDecimal
    rw [if_neg h0]
    rw [List.map_map]
    have hmap : ((decDigits n n).reverse.map ((fun b => b - 48) ∘ fun d => d + 48))
        = (decDigits n n).reverse := by
      have hpt : ∀ d ∈ (decDigits n n).reverse,
          ((fun b => b - 48) ∘ fun d => d + 48) d = id d := by
        intro d _
        simp
      rw [List.map_congr_left hpt, List.map_id]
    rw [hmap]
    unfold digitsVal
    rw [List.reverse_reverse]
    exact digitsValRev_decDigits n n (le_refl n)

/-- Length of a little-endian byte block. -/
theorem leBytes_length : ∀ (k n : Nat), (leBytes k n).length = k := by
  intro k
  induction k with
  | zero => intro n; rfl
  | succ k ih => intro n; simp [leBytes, ih]

/-- Little-endian blocks decode to their value. -/
theorem fromLE_leBytes :
    ∀ (k n : Nat), n < 256 ^ k → fromLE (leBytes k n) = n := by
  intro k
  induction k with
  | zero => intro n h; simp at h; simp [h, leBytes, fromLE]
  | succ k ih =>
      intro n h
      rw [leBytes, fromLE, ih (n / 256) ?_]
      · omega
      · have : 256 ^ (k + 1) = 256 ^ k * 256 := by ring
        rw [this] at h
        exact Nat.div_lt_of_lt_mul (by omega)

/-- Big-endian blocks decode to their value. -/
theorem fromBE_beBytes (k n : Nat) (h : n < 256 ^ k) :
    fromBE (beBytes k n) = n := by
  unfold fromBE beBytes
  rw [List.reverse_reverse]
  exact fromLE_leBytes k n h

/-- `parseLine` cuts exactly at the first newline. -/
theorem parseLine_append (l rest : List Nat) (h : 10 ∉ l) :
    parseLine (l ++ 10 :: rest) = some (l, rest) := by
  induction l with
  | nil => simp [parseLine]
  | cons b bs ih =>
      have hb : b ≠ 10 := fun hc => h (hc ▸ List.mem_cons_self b bs)
      rw [List.cons_append, parseLine, if_neg hb,
        ih (fun hm => h (List.mem_cons_of_mem b hm))]
      rfl

/-- The result of `splitSep` is never the empty list. -/
theorem splitSep_ne_nil (sep : Nat) :
    ∀ (r : List Nat), splitSep sep r ≠ [] := by
  intro r
  induction r with
  | nil => simp [splitSep]
  | cons x xs ih =>
      rw [splitSep]
      rcases hx : splitSep sep xs with _ | ⟨c, cs⟩
      · simp
      · dsimp only
        split <;> simp

/-- Splitting a separator-free chunk is the identity. -/
theorem splitSep_nosep (sep : Nat) :
    ∀ (t : List Nat), sep ∉ t → splitSep sep t = [t] := by
  intro t
  induction t with
  | nil => intro _; rfl
  | cons b bs ih =>
      intro h
      have hb : b ≠ sep := fun hc => h (hc ▸ List.mem_cons_self b bs)
      rw [splitSep, ih (fun hm => h (List.mem_cons_of_mem b hm))]
      dsimp only
      rw [if_neg hb]

/-- Splitting after a separator-free chunk plus a separator peels the
chunk off. -/
theorem splitSep_append (sep : Nat) :
    ∀ (t r : List Nat), sep ∉ t →
      splitSep sep (t ++ sep :: r) = t :: splitSep sep r := by
  intro t
  induction t with
  | nil =>
      intro r _
      rw [List.nil_append, splitSep]
      rcases hs : splitSep sep r with _ | ⟨c, cs⟩
      · exact absurd hs (splitSep_ne_nil sep r)
      · dsimp only
        rw [if_pos rfl, ← hs]
  | cons b bs ih =>
      intro r h
      have hb : b ≠ sep := fun hc => h (hc ▸ List.mem_cons_self b bs)
      rw [List.cons_append, splitSep,
        ih r (fun hm => h (List.mem_cons_of_mem b hm))]
      dsimp only
      rw [if_neg hb]

/-- Splitting inverts joining for separator-free tokens. -/
theorem splitSep_joinSep (sep : Nat) :
    ∀ (ts : List (List Nat)), ts ≠ [] → (∀ t ∈ ts, sep ∉ t) →
      splitSep sep (joinSep sep ts) = ts := by
  intro ts
  induction ts with
  | nil => intro h; exact absurd rfl h
  | cons t ts ih =>
      intro _ hfree
      cases ts with
      | nil =>
          rw [joinSep]
          exact splitSep_nosep sep t (hfree t (List.mem_cons_self t []))
      | cons t2 ts2 =>
          rw [joinSep, splitSep_append sep t _
            (hfree t (List.mem_cons_self t _))]
          rw [ih (List.cons_ne_nil t2 ts2)
            (fun u hu => hfree u (List.mem_cons_of_mem t hu))]
          simp

end Ply

namespace Ply

/-- The bytes of "ply". -/
def kwPly : List Nat := [112, 108, 121]

/-- The bytes of "format". -/
def kwFormat : List Nat := [102, 111, 114, 109, 97, 116]

/-- The bytes of "ascii". -/
def kwAsciiEnc : List Nat := [97, 115, 99, 105, 105]

/-- The bytes of "binary_little_endian". -/
def kwBLE : List Nat := [98, 105, 110, 97, 114, 121, 95, 108, 105, 116, 116, 108, 101, 95, 101, 110, 100, 105, 97, 110]

/-- The bytes of "binary_big_endian". -/
def kwBBE : List Nat := [98, 105, 110, 97, 114, 121, 95, 98, 105, 103, 95, 101, 110, 100, 105, 97, 110]

/-- The bytes of "1.0". -/
def kwVersion : List Nat := [49, 46, 48]

/-- The bytes of "element". -/
def kwElement : List Nat := [101, 108, 101, 109, 101, 110, 116]

/-- The bytes of "property". -/
def kwProperty : List Nat := [112, 114, 111, 112, 101, 114, 116, 121]

/-- The bytes of "comment". -/
def kwComment : List Nat := [99, 111, 109, 109, 101, 110, 116]

/-- The bytes of "obj_info". -/
def kwObjInfo : List Nat := [111, 98, 106, 95, 105, 110, 102, 111]

/-- The bytes of "end_header". -/
def kwEndHeader : List Nat := [101, 110, 100, 95, 104, 101, 97, 100, 101, 114]

/-- The bytes of "list". -/
def kwList : List Nat := [108, 105, 115, 116]

/-- The bytes of "char". -/
def kwChar : List Nat := [99, 104, 97, 114]

/-- The bytes of "int8". -/
def kwInt8 : List Nat := [105, 110, 116, 56]

/-- The bytes of "uchar". -/
def kwUchar : List Nat := [117, 99, 104, 97, 114]

/-- The bytes of "uint8". -/
def kwUint8 : List Nat := [117, 105, 110, 116, 56]

/-- The bytes of "short". -/
def kwShort : List Nat := [115, 104, 111, 114, 116]

/-- The bytes of "int16". -/
def kwInt16 : List Nat := [105, 110, 116, 49, 54]

/-- The bytes of "ushort". -/
def kwUshort : List Nat := [117, 115, 104, 111, 114, 116]

/-- The bytes of "uint16". -/
def kwUint16 : List Nat := [117, 105, 110, 116, 49, 54]

/-- The bytes of "int". -/
def kwInt : List Nat := [105, 110, 116]

/-- The bytes of "int32". -/
def kwInt32 : List Nat := [105, 110, 116, 51, 50]

/-- The bytes of "uint". -/
def kwUint : List Nat := [117, 105, 110, 116]

/-- The bytes of "uint32". -/
def kwUint32 : List Nat := [117, 105, 110, 116, 51, 50]

/-- The bytes of "float". -/
def kwFloat : List Nat := [102, 108, 111, 97, 116]

/-- The bytes of "float32". -/
def kwFloat32 : List Nat := [102, 108, 111, 97, 116, 51, 50]

/-- The bytes of "double". -/
def kwDouble : List Nat := [100, 111, 117, 98, 108, 101]

/-- The bytes of "float64". -/
def kwFloat64 : List Nat := [102, 108, 111, 97, 116, 54, 52]

/-- The bytes of "vertex". -/
def kwVertex : List Nat := [118, 101, 114, 116, 101, 120]

/-- The bytes of "face". -/
def kwFace : List Nat := [102, 97, 99, 101]

/-- The bytes of "x". -/
def kwX : List Nat := [120]

/-- The bytes of "y". -/
def kwY : List Nat := [121]

/-- The bytes of "z". -/
def kwZ : List Nat := [122]

/-- The bytes of "vertex_indices". -/
def kwVertexIndices : List Nat := [118, 101, 114, 116, 101, 120, 95, 105, 110, 100, 105, 99, 101, 115]

/-- The scalar types of the typed-property layer
(`{i8,u8,i16,u16,i32,u32,f32,f64}`, in PLY naming). -/
inductive ScalarType where
  | char | uchar | short | ushort | int | uint | float | double
deriving DecidableEq, Repr

/-- On-wire width in bytes of a scalar type. -/
def ScalarType.width : ScalarType → Nat
  | .char => 1 | .uchar => 1
  | .short => 2 | .ushort => 2
  | .int => 4 | .uint => 4
  | .float => 4 | .double => 8

/-- The list length types (`len_tag ∈ {u8, u16, u32}`). -/
inductive ListLenType where
  | uchar | ushort | uint
deriving DecidableEq, Repr

/-- On-wire width in bytes of a list length type. -/
def ListLenType.width : ListLenType → Nat
  | .uchar => 1 | .ushort => 2 | .uint => 4

/-- A property type: a scalar or a length-prefixed homogeneous list. -/
inductive PropertyType where
  | scalar (t : ScalarType)
  | list (lenType : ListLenType) (elemType : ScalarType)
deriving DecidableEq, Repr

/-- A named property definition inside an element group. -/
structure PropertyDef where
  name : List Nat
  ty : PropertyType
deriving DecidableEq, Repr

/-- An element group definition: name, declared count, ordered property
definitions. -/
structure ElementDef where
  name : List Nat
  count : Nat
  props : List PropertyDef
deriving DecidableEq, Repr

/-- The three PLY encodings. -/
inductive Encoding where
  | ascii | binaryLittleEndian | binaryBigEndian
deriving DecidableEq, Repr

/-- A typed property value.  Scalar values are carried bit-exact as
their wire patterns (`Nat` below `256 ^ width`); lists carry the element
patterns in order. -/
inductive Property where
  | scalar (t : ScalarType) (pattern : Nat)
  | list (lenType : ListLenType) (elemType : ScalarType)
      (patterns : List Nat)
deriving DecidableEq, Repr

/-- A parsed raw element group: its definition and its records, each a
list of property values in declaration order. -/
structure RawElementGroup where
  edef : ElementDef
  elements : List (List Property)
deriving DecidableEq, Repr

/-- The typed-property stream a raw read produces. -/
abbrev RawResult := List RawElementGroup

/-- The scalar type named by an ASCII type keyword (both PLY spellings
per the spec's grammar). -/
def parseScalarTypeTok (tok : List Nat) : Option ScalarType :=
  if tok = kwChar || tok = kwInt8 then some .char
  else if tok = kwUchar || tok = kwUint8 then some .uchar
  else if tok = kwShort || tok = kwInt16 then some .short
  else if tok = kwUshort || tok = kwUint16 then some .ushort
  else if tok = kwInt || tok = kwInt32 then some .int
  else if tok = kwUint || tok = kwUint32 then some .uint
  else if tok = kwFloat || tok = kwFloat32 then some .float
  else if tok = kwDouble || tok = kwFloat64 then some .double
  else none

/-- The list length type named by an ASCII type keyword. -/
def parseListLenTok (tok : List Nat) : Option ListLenType :=
  if tok = kwUchar || tok = kwUint8 then some .uchar
  else if tok = kwUshort || tok = kwUint16 then some .ushort
  else if tok = kwUint || tok = kwUint32 then some .uint
  else none

/-- The encoding named in the `format` line. -/
def parseEncodingTok (tok : List Nat) : Option Encoding :=
  if tok = kwAsciiEnc then some .ascii
  else if tok = kwBLE then some .binaryLittleEndian
  else if tok = kwBBE then some .binaryBigEndian
  else none

/-- The `format` line keyword of an encoding. -/
def encodingKw : Encoding → List Nat
  | .ascii => kwAsciiEnc
  | .binaryLittleEndian => kwBLE
  | .binaryBigEndian => kwBBE

/-- The float codec of the ASCII encoding: how a float bit pattern is
rendered as a decimal token and parsed back.  The writer's rendering
round-trips bit-exact per the spec's serialization contract; the codec
is a parameter here, with that contract as the hypothesis `GoodCodec`. -/
structure FloatCodec where
  render32 : Nat → List Nat
  parse32 : List Nat → Option Nat
  render64 : Nat → List Nat
  parse64 : List Nat → Option Nat

/-- The spec's serialization contract for the ASCII float codec: a
32-bit pattern parses back bit-exact, and its token contains neither a
newline nor a space byte. -/
def GoodCodec (c : FloatCodec) : Prop :=
  (∀ n, n < 2 ^ 32 → c.parse32 (c.render32 n) = some n) ∧
  (∀ n, n < 2 ^ 32 → ∀ b ∈ c.render32 n, b ≠ 10 ∧ b ≠ 32)

/-- The mesh the writer serializes (the shape of the reference triangle
tests): vertex positions as three `f32` bit patterns each, triangular
faces as three `u32` vertex indices each. -/
structure PlyMesh where
  vertices : List (Nat × Nat × Nat)
  faces : List (Nat × Nat × Nat)
deriving DecidableEq, Repr

/-- Well-formedness of the mesh's wire values: every stored pattern and
index fits in 32 bits. -/
def PlyMesh.WF (m : PlyMesh) : Prop :=
  (∀ v ∈ m.vertices, v.1 < 2 ^ 32 ∧ v.2.1 < 2 ^ 32 ∧ v.2.2 < 2 ^ 32) ∧
  (∀ f ∈ m.faces, f.1 < 2 ^ 32 ∧ f.2.1 < 2 ^ 32 ∧ f.2.2 < 2 ^ 32)

/-- Property definitions of the vertex group (`float x`, `float y`,
`float z`). -/
def vertexDefs : List PropertyDef :=
  [⟨kwX, .scalar .float⟩, ⟨kwY, .scalar .float⟩, ⟨kwZ, .scalar .float⟩]

/-- Property definitions of the face group
(`list uchar uint vertex_indices`). -/
def faceDefs : List PropertyDef :=
  [⟨kwVertexIndices, .list .uchar .uint⟩]

/-- A rendered header/body line: tokens joined by spaces plus the
newline. -/
def renderLine (toks : List (List Nat)) : List Nat :=
  joinSep 32 toks ++ [10]

/-- The header the writer emits for a mesh with `nv` vertices and `nf`
faces: magic, format line, the vertex and face element declarations,
`end_header`. -/
def headerBytes (e : Encoding) (nv nf : Nat) : List Nat :=
  renderLine [kwPly] ++
  renderLine [kwFormat, encodingKw e, kwVersion] ++
  renderLine [kwElement, kwVertex, natDecimal nv] ++
  renderLine [kwProperty, kwFloat, kwX] ++
  renderLine [kwProperty, kwFloat, kwY] ++
  renderLine [kwProperty, kwFloat, kwZ] ++
  renderLine [kwElement, kwFace, natDecimal nf] ++
  renderLine [kwProperty, kwList, kwUchar, kwUint, kwVertexIndices] ++
  renderLine [kwEndHeader]

/-- A 4-byte scalar in the given byte order. -/
def enc4 (big : Bool) (n : Nat) : List Nat :=
  if big then beBytes 4 n else leBytes 4 n

/-- A binary vertex record: `x`, `y`, `z` as packed 4-byte floats. -/
def vertexBinBytes (big : Bool) (v : Nat × Nat × Nat) : List Nat :=
  enc4 big v.1 ++ enc4 big v.2.1 ++ enc4 big v.2.2

/-- A binary face record: the `u8` list length `3` followed by three
packed `u32` vertex indices. -/
def faceBinBytes (big : Bool) (f : Nat × Nat × Nat) : List Nat :=
  [3] ++ enc4 big f.1 ++ enc4 big f.2.1 ++ enc4 big f.2.2

/-- An ASCII vertex record: three float tokens. -/
def vertexLineToks (c : FloatCodec) (v : Nat × Nat × Nat) :
    List (List Nat) :=
  [c.render32 v.1, c.render32 v.2.1, c.render32 v.2.2]

/-- An ASCII face record: `3 i0 i1 i2` in decimal. -/
def faceLineToks (f : Nat × Nat × Nat) : List (List Nat) :=
  [natDecimal 3, natDecimal f.1, natDecimal f.2.1, natDecimal f.2.2]

/-- The body the writer emits: all vertex records then all face records,
in the chosen encoding. -/
def bodyBytes (c : FloatCodec) (e : Encoding) (m : PlyMesh) : List Nat :=
  match e with
  | .ascii =>
      (m.vertices.map (fun v => renderLine (vertexLineToks c v))).flatten ++
      (m.faces.map (fun f => renderLine (faceLineToks f))).flatten
  | .binaryLittleEndian =>
      (m.vertices.map (vertexBinBytes false)).flatten ++
      (m.faces.map (faceBinBytes false)).flatten
  | .binaryBigEndian =>
      (m.vertices.map (vertexBinBytes true)).flatten ++
      (m.faces.map (faceBinBytes true)).flatten

/-- The PLY writer, modelled from the spec (§4.5, §8 scenarios 1 and 2):
header reflecting the attached position map and the connectivity list,
then the tightly packed body in the chosen encoding. -/
def writePly (c : FloatCodec) (m : PlyMesh) (e : Encoding) : List Nat :=
  headerBytes e m.vertices.length m.faces.length ++ bodyBytes c e m

/-- The typed-property stream a mesh denotes: the vertex group with the
three float properties per record, then the face group with one
`list uchar uint` property per record. -/
def rawStreamOf (m : PlyMesh) : RawResult :=
  [⟨⟨kwVertex, m.vertices.length, vertexDefs⟩,
    m.vertices.map fun v =>
      [.scalar .float v.1, .scalar .float v.2.1, .scalar .float v.2.2]⟩,
   ⟨⟨kwFace, m.faces.length, faceDefs⟩,
    m.faces.map fun f => [.list .uchar .uint [f.1, f.2.1, f.2.2]]⟩]

end Ply

namespace Ply

/-- Take exactly `k` bytes from the stream, or fail (short read). -/
def readBytesN (k : Nat) (bs : List Nat) : Option (List Nat × List Nat) :=
  if k ≤ bs.length then some (bs.take k, bs.drop k) else none

/-- Read one binary scalar of type `t` (big- or little-endian). -/
def parseScalarBin (big : Bool) (t : ScalarType) (bs : List Nat) :
    Option (Nat × List Nat) :=
  match readBytesN t.width bs with
  | none => none
  | some p => some ((if big then fromBE p.1 else fromLE p.1), p.2)

/-- Read `n` binary scalars of type `t`. -/
def parseScalarsBin (big : Bool) (t : ScalarType) :
    Nat → List Nat → Option (List Nat × List Nat)
  | 0, bs => some ([], bs)
  | n + 1, bs =>
      match parseScalarBin big t bs with
      | none => none
      | some (v, r) =>
          match parseScalarsBin big t n r with
          | none => none
          | some (vs, r2) => some (v :: vs, r2)

/-- Read one binary property (scalar, or length-prefixed list). -/
def parsePropBin (big : Bool) (ty : PropertyType) (bs : List Nat) :
    Option (Property × List Nat) :=
  match ty with
  | .scalar t =>
      match parseScalarBin big t bs with
      | none => none
      | some (v, r) => some (.scalar t v, r)
  | .list lt et =>
      match readBytesN lt.width bs with
      | none => none
      | some (pre, r) =>
          let n := if big then fromBE pre else fromLE pre
          match parseScalarsBin big et n r with
          | none => none
          | some (vs, r2) => some (.list lt et vs, r2)

/-- Read one binary record (the properties in declaration order). -/
def parseRecordBin (big : Bool) :
    List PropertyDef → List Nat → Option (List Property × List Nat)
  | [], bs => some ([], bs)
  | pd :: pds, bs =>
      match parsePropBin big pd.ty bs with
      | none => none
      | some (p, r) =>
          match parseRecordBin big pds r with
          | none => none
          | some (ps, r2) => some (p :: ps, r2)

/-- Read `count` binary records. -/
def parseRecordsBin (big : Bool) (pds : List PropertyDef) :
    Nat → List Nat → Option (List (List Property) × List Nat)
  | 0, bs => some ([], bs)
  | n + 1, bs =>
      match parseRecordBin big pds bs with
      | none => none
      | some (rec, r) =>
          match parseRecordsBin big pds n r with
          | none => none
          | some (recs, r2) => some (rec :: recs, r2)

/-- Parse a signed ASCII decimal token into its two's-complement
pattern. -/
def parseSignedTok (bits : Nat) (tok : List Nat) : Option Nat :=
  match tok with
  | 45 :: rest =>
      match parseNat rest with
      | none => none
      | some v =>
          if 0 < v ∧ v ≤ 2 ^ (bits - 1) then some (2 ^ bits - v) else none
  | _ =>
      match parseNat tok with
      | none => none
      | some v => if v < 2 ^ (bits - 1) then some v else none

/-- Parse one ASCII scalar token of type `t` into its bit pattern. -/
def parseScalarTok (c : FloatCodec) (t : ScalarType) (tok : List Nat) :
    Option Nat :=
  match t with
  | .uchar =>
      match parseNat tok with
      | none => none
      | some v => if v < 2 ^ 8 then some v else none
  | .ushort =>
      match parseNat tok with
      | none => none
      | some v => if v < 2 ^ 16 then some v else none
  | .uint =>
      match parseNat tok with
      | none => none
      | some v => if v < 2 ^ 32 then some v else none
  | .char => parseSignedTok 8 tok
  | .short => parseSignedTok 16 tok
  | .int => parseSignedTok 32 tok
  | .float => c.parse32 tok
  | .double => c.parse64 tok

/-- Parse `n` ASCII scalar tokens of type `t`. -/
def parseScalarToks (c : FloatCodec) (t : ScalarType) :
    Nat → List (List Nat) → Option (List Nat × List (List Nat))
  | 0, toks => some ([], toks)
  | n + 1, toks =>
      match toks with
      | [] => none
      | tok :: ts =>
          match parseScalarTok c t tok with
          | none => none
          | some v =>
              match parseScalarToks c t n ts with
              | none => none
              | some (vs, ts2) => some (v :: vs, ts2)

/-- Parse one ASCII property from the record's tokens. -/
def parsePropAscii (c : FloatCodec) (ty : PropertyType)
    (toks : List (List Nat)) : Option (Property × List (List Nat)) :=
  match ty with
  | .scalar t =>
      match toks with
      | [] => none
      | tok :: ts =>
          match parseScalarTok c t tok with
          | none => none
          | some v => some (.scalar t v, ts)
  | .list lt et =>
      match toks with
      | [] => none
      | tok :: ts =>
          match parseNat tok with
          | none => none
          | some n =>
              if n < 256 ^ lt.width then
                match parseScalarToks c et n ts with
                | none => none
                | some (vs, ts2) => some (.list lt et vs, ts2)
              else none

/-- Parse one ASCII record (the properties in declaration order). -/
def parseRecordAscii (c : FloatCodec) :
    List PropertyDef → List (List Nat) →
      Option (List Property × List (List Nat))
  | [], toks => some ([], toks)
  | pd :: pds, toks =>
      match parsePropAscii c pd.ty toks with
      | none => none
      | some (p, ts) =>
          match parseRecordAscii c pds ts with
          | none => none
          | some (ps, ts2) => some (p :: ps, ts2)

/-- Parse `count` ASCII records, one line each; a record must consume
its whole line. -/
def parseGroupAscii (c : FloatCodec) (pds : List PropertyDef) :
    Nat → List Nat → Option (List (List Property) × List Nat)
  | 0, bs => some ([], bs)
  | n + 1, bs =>
      match parseLine bs with
      | none => none
      | some (l, rest) =>
          match parseRecordAscii c pds (splitSep 32 l) with
          | some (rec, []) =>
              match parseGroupAscii c pds n rest with
              | none => none
              | some (recs, r2) => some (rec :: recs, r2)
          | _ => none

/-- Parse the bodies of all declared element groups, in declared order
and per-group count. -/
def parseGroups (e : Encoding) (c : FloatCodec) :
    List ElementDef → List Nat →
      Option (List RawElementGroup × List Nat)
  | [], bs => some ([], bs)
  | ed :: eds, bs =>
      let recs :=
        match e with
        | .ascii => parseGroupAscii c ed.props ed.count bs
        | .binaryLittleEndian => parseRecordsBin false ed.props ed.count bs
        | .binaryBigEndian => parseRecordsBin true ed.props ed.count bs
      match recs with
      | none => none
      | some (rs, rest) =>
          match parseGroups e c eds rest with
          | none => none
          | some (gs, rest2) => some (⟨ed, rs⟩ :: gs, rest2)

/-- One classified header line. -/
inductive HeaderCmd where
  | endH
  | elemLine (name : List Nat) (count : Nat)
  | propLine (pd : PropertyDef)
  | skip
  | bad
deriving DecidableEq, Repr

/-- Classify one header line per the spec's grammar: `end_header`,
`element NAME COUNT`, `property TYPE NAME`,
`property list LEN-TYPE ELEM-TYPE NAME`, `comment ...`, `obj_info ...`;
anything else is a fatal header error. -/
def classifyHeaderLine (toks : List (List Nat)) : HeaderCmd :=
  match toks with
  | [] => .bad
  | [k] => if k = kwEndHeader then .endH else .bad
  | k :: rest =>
      if k = kwComment || k = kwObjInfo then .skip
      else if k = kwElement then
        match rest with
        | [nm, cnt] =>
            match parseNat cnt with
            | some c => .elemLine nm c
            | none => .bad
        | _ => .bad
      else if k = kwProperty then
        match rest with
        | [tk, nm] =>
            match parseScalarTypeTok tk with
            | some t => .propLine ⟨nm, .scalar t⟩
            | none => .bad
        | [lk, ltk, etk, nm] =>
            if lk = kwList then
              match parseListLenTok ltk, parseScalarTypeTok etk with
              | some lt, some et => .propLine ⟨nm, .list lt et⟩
              | _, _ => .bad
            else .bad
        | _ => .bad
      else .bad

/-- Reverse the accumulated property lists (they are built most recent
first). -/
def finishDefs (acc : List ElementDef) : List ElementDef :=
  (acc.map fun e => { e with props := e.props.reverse }).reverse

/-- The header loop: read lines until `end_header`, collecting element
and property declarations; a `property` before any `element` is fatal.
`fuel` bounds the number of lines (each line consumes at least one
byte). -/
def parseHeaderLoop :
    Nat → List Nat → List ElementDef →
      Option (List ElementDef × List Nat)
  | 0, _, _ => none
  | fuel + 1, bytes, acc =>
      match parseLine bytes with
      | none => none
      | some (l, rest) =>
          match classifyHeaderLine (splitSep 32 l) with
          | .endH => some (finishDefs acc, rest)
          | .elemLine nm c => parseHeaderLoop fuel rest (⟨nm, c, []⟩ :: acc)
          | .propLine pd =>
              match acc with
              | [] => none
              | e :: es =>
                  parseHeaderLoop fuel rest
                    ({ e with props := pd :: e.props } :: es)
          | .skip => parseHeaderLoop fuel rest acc
          | .bad => none

/-- The header parser: magic line, format line (version `1.0` only),
then the declaration loop. -/
def parseHeader (bytes : List Nat) :
    Option (Encoding × List ElementDef × List Nat) :=
  match parseLine bytes with
  | none => none
  | some (l1, r1) =>
      if l1 = kwPly then
        match parseLine r1 with
        | none => none
        | some (l2, r2) =>
            match splitSep 32 l2 with
            | [fk, ek, vk] =>
                if fk = kwFormat && vk = kwVersion then
                  match parseEncodingTok ek with
                  | none => none
                  | some e =>
                      match parseHeaderLoop (r2.length + 1) r2 [] with
                      | none => none
                      | some (defs, body) => some (e, defs, body)
                else none
            | _ => none
      else none

/-- The raw PLY reader, modelled from the spec (§4.2): parse the header,
then materialize every element group (`into_raw_result`); trailing bytes
are a malformed file. -/
def readPly (c : FloatCodec) (bytes : List Nat) : Option RawResult :=
  match parseHeader bytes with
  | none => none
  | some (e, defs, body) =>
      match parseGroups e c defs body with
      | some (gs, []) => some gs
      | _ => none

end Ply

namespace Ply

/-- A byte that is not the separator and not in any token is not in the
joined line. -/
theorem joinSep_not_mem (sep b : Nat) (hb : b ≠ sep) :
    ∀ (ts : List (List Nat)), (∀ t ∈ ts, b ∉ t) → b ∉ joinSep sep ts := by
  intro ts
  induction ts with
  | nil => intro _; simp [joinSep]
  | cons t ts ih =>
      intro hfree
      cases ts with
      | nil =>
          rw [joinSep]
          exact hfree t (List.mem_cons_self t [])
      | cons t2 ts2 =>
          have hj : joinSep sep (t :: t2 :: ts2)
              = t ++ sep :: joinSep sep (t2 :: ts2) := rfl
          rw [hj]
          intro hmem
          rcases List.mem_append.mp hmem with h | h
          · exact hfree t (List.mem_cons_self t _) h
          · rcases List.mem_cons.mp h with h | h
            · exact hb h
            · exact ih (fun u hu => hfree u (List.mem_cons_of_mem t hu)) h

/-- Reading exactly the length of a prefix returns that prefix. -/
theorem readBytesN_exact (k : Nat) (pre rest : List Nat)
    (h : pre.length = k) :
    readBytesN k (pre ++ rest) = some (pre, rest) := by
  subst h
  unfold readBytesN
  rw [if_pos (by simp), List.take_left, List.drop_left]

/-- Fact: `256 ^ 4 = 2 ^ 32`. -/
theorem pow256_4 : (256 : Nat) ^ 4 = 2 ^ 32 := by norm_num

/-- The packed 4-byte block has length 4. -/
theorem enc4_length (big : Bool) (n : Nat) : (enc4 big n).length = 4 := by
  cases big <;> simp [enc4, beBytes, leBytes_length]

/-- A packed 4-byte scalar decodes to its pattern. -/
theorem parseScalarBin_enc4 (big : Bool) (t : ScalarType)
    (ht : t.width = 4) (n : Nat) (hn : n < 2 ^ 32) (rest : List Nat) :
    parseScalarBin big t (enc4 big n ++ rest) = some (n, rest) := by
  have hn' : n < 256 ^ 4 := by rw [pow256_4]; exact hn
  unfold parseScalarBin
  rw [ht, readBytesN_exact 4 _ _ (enc4_length big n)]
  cases big
  · simp [enc4, fromLE_leBytes 4 n hn']
  · simp [enc4, fromBE_beBytes 4 n hn']

/-- One step of the header loop on a rendered line. -/
theorem parseHeaderLoop_step (fuel : Nat) (toks : List (List Nat))
    (rest : List Nat) (acc : List ElementDef) (hne : toks ≠ [])
    (hfree : ∀ t ∈ toks, (10 : Nat) ∉ t ∧ (32 : Nat) ∉ t) :
    parseHeaderLoop (fuel + 1) (renderLine toks ++ rest) acc =
      match classifyHeaderLine toks with
      | .endH => some (finishDefs acc, rest)
      | .elemLine nm c => parseHeaderLoop fuel rest (⟨nm, c, []⟩ :: acc)
      | .propLine pd =>
          match acc with
          | [] => none
          | e :: es =>
              parseHeaderLoop fuel rest
                ({ e with props := pd :: e.props } :: es)
      | .skip => parseHeaderLoop fuel rest acc
      | .bad => none := by
  have h10 : (10 : Nat) ∉ joinSep 32 toks :=
    joinSep_not_mem 32 10 (by omega) toks (fun t ht => (hfree t ht).1)
  have hjoin : renderLine toks ++ rest = joinSep 32 toks ++ 10 :: rest := by
    simp [renderLine]
  rw [parseHeaderLoop, hjoin, parseLine_append _ _ h10]
  dsimp only
  rw [splitSep_joinSep 32 toks hne (fun t ht => (hfree t ht).2)]

end Ply

namespace Ply

/-- The header loop is monotone in its fuel. -/
theorem parseHeaderLoop_mono :
    ∀ (f1 : Nat) (bytes : List Nat) (acc : List ElementDef)
      (r : List ElementDef × List Nat),
      parseHeaderLoop f1 bytes acc = some r →
      ∀ f2, f1 ≤ f2 → parseHeaderLoop f2 bytes acc = some r := by
  intro f1
  induction f1 with
  | zero =>
      intro bytes acc r h
      exact absurd h (by simp [parseHeaderLoop])
  | succ f ih =>
      intro bytes acc r h f2 hle
      cases f2 with
      | zero => omega
      | succ f2 =>
          rw [parseHeaderLoop] at h ⊢
          rcases hpl : parseLine bytes with _ | ⟨l, rest⟩ <;>
            rw [hpl] at h <;> dsimp only at h ⊢
          · exact h
          · rcases hc : classifyHeaderLine (splitSep 32 l) with
              _ | ⟨nm, c⟩ | pd | _ | _ <;> rw [hc] at h <;> dsimp only at h ⊢
            · exact h
            · exact ih _ _ _ h f2 (by omega)
            · rcases acc with _ | ⟨e, es⟩
              · exact h
              · exact ih _ _ _ h f2 (by omega)
            · exact ih _ _ _ h f2 (by omega)
            · exact h

/-- Classification of an emitted `element` line. -/
theorem classify_element (nm : List Nat) (n : Nat) :
    classifyHeaderLine [kwElement, nm, natDecimal n] = .elemLine nm n := by
  have h1 : ((kwElement = kwComment || kwElement = kwObjInfo : Bool))
      = false := by decide
  have h2 : ((kwElement = kwElement : Bool)) = true := by decide
  simp only [classifyHeaderLine, h1, h2, Bool.false_eq_true, if_false,
    if_true, parseNat_natDecimal]

/-- Classification of an emitted scalar `property` line. -/
theorem classify_prop_float (nm : List Nat) :
    classifyHeaderLine [kwProperty, kwFloat, nm]
      = .propLine ⟨nm, .scalar .float⟩ := by
  have h1 : ((kwProperty = kwComment || kwProperty = kwObjInfo : Bool))
      = false := by decide
  have h4 : parseScalarTypeTok kwFloat = some .float := by decide
  simp only [classifyHeaderLine, h1, h4, Bool.false_eq_true, if_false]
  rw [if_neg (show ¬ kwProperty = kwElement by decide)]
  simp

/-- Classification of the emitted `property list uchar uint` line. -/
theorem classify_prop_list (nm : List Nat) :
    classifyHeaderLine [kwProperty, kwList, kwUchar, kwUint, nm]
      = .propLine ⟨nm, .list .uchar .uint⟩ := by
  have h1 : ((kwProperty = kwComment || kwProperty = kwObjInfo : Bool))
      = false := by decide
  have h5 : parseListLenTok kwUchar = some .uchar := by decide
  have h6 : parseScalarTypeTok kwUint = some .uint := by decide
  simp only [classifyHeaderLine, h1, h5, h6, Bool.false_eq_true, if_false]
  rw [if_neg (show ¬ kwProperty = kwElement by decide)]
  simp

/-- Classification of the `end_header` line. -/
theorem classify_end : classifyHeaderLine [kwEndHeader] = .endH := by
  decide

/-- Every byte of a decimal numeral is neither a newline nor a space. -/
theorem natDecimal_free (n : Nat) :
    ∀ b ∈ natDecimal n, (10 : Nat) ≠ b ∧ (32 : Nat) ≠ b := by
  intro b hb
  have := natDecimal_bytes n b hb
  omega

end Ply

namespace Ply

/-- A decimal numeral contains neither newline nor space bytes. -/
theorem natDecimal_nomem (n : Nat) :
    (10 : Nat) ∉ natDecimal n ∧ (32 : Nat) ∉ natDecimal n := by
  constructor <;> intro hb <;>
    exact absurd (natDecimal_bytes n _ hb) (by omega)

/-- The `format` keyword of an encoding names that encoding. -/
theorem parseEncodingTok_kw (e : Encoding) :
    parseEncodingTok (encodingKw e) = some e := by
  cases e <;> decide

/-- The emitted header parses back to the emitted element definitions,
leaving exactly the body. -/
theorem parseHeader_headerBytes (e : Encoding) (nv nf : Nat)
    (body : List Nat) :
    parseHeader (headerBytes e nv nf ++ body)
      = some (e, [⟨kwVertex, nv, vertexDefs⟩, ⟨kwFace, nf, faceDefs⟩],
          body) := by
  simp only [headerBytes, List.append_assoc]
  unfold parseHeader
  rw [show renderLine [kwPly]
        ++ (renderLine [kwFormat, encodingKw e, kwVersion]
        ++ (renderLine [kwElement, kwVertex, natDecimal nv]
        ++ (renderLine [kwProperty, kwFloat, kwX]
        ++ (renderLine [kwProperty, kwFloat, kwY]
        ++ (renderLine [kwProperty, kwFloat, kwZ]
        ++ (renderLine [kwElement, kwFace, natDecimal nf]
        ++ (renderLine [kwProperty, kwList, kwUchar, kwUint,
              kwVertexIndices]
        ++ (renderLine [kwEndHeader] ++ body))))))))
      = kwPly ++ 10 ::
        (renderLine [kwFormat, encodingKw e, kwVersion]
        ++ (renderLine [kwElement, kwVertex, natDecimal nv]
        ++ (renderLine [kwProperty, kwFloat, kwX]
        ++ (renderLine [kwProperty, kwFloat, kwY]
        ++ (renderLine [kwProperty, kwFloat, kwZ]
        ++ (renderLine [kwElement, kwFace, natDecimal nf]
        ++ (renderLine [kwProperty, kwList, kwUchar, kwUint,
              kwVertexIndices]
        ++ (renderLine [kwEndHeader] ++ body))))))))
      by simp [renderLine, joinSep]]
  rw [parseLine_append kwPly _ (by decide)]
  dsimp only
  rw [if_pos rfl]
  rw [show renderLine [kwFormat, encodingKw e, kwVersion]
        ++ (renderLine [kwElement, kwVertex, natDecimal nv]
        ++ (renderLine [kwProperty, kwFloat, kwX]
        ++ (renderLine [kwProperty, kwFloat, kwY]
        ++ (renderLine [kwProperty, kwFloat, kwZ]
        ++ (renderLine [kwElement, kwFace, natDecimal nf]
        ++ (renderLine [kwProperty, kwList, kwUchar, kwUint,
              kwVertexIndices]
        ++ (renderLine [kwEndHeader] ++ body)))))))
      = joinSep 32 [kwFormat, encodingKw e, kwVersion] ++ 10 ::
        (renderLine [kwElement, kwVertex, natDecimal nv]
        ++ (renderLine [kwProperty, kwFloat, kwX]
        ++ (renderLine [kwProperty, kwFloat, kwY]
        ++ (renderLine [kwProperty, kwFloat, kwZ]
        ++ (renderLine [kwElement, kwFace, natDecimal nf]
        ++ (renderLine [kwProperty, kwList, kwUchar, kwUint,
              kwVertexIndices]
        ++ (renderLine [kwEndHeader] ++ body)))))))
      from by simp [renderLine]]
  rw [parseLine_append _ _ (joinSep_not_mem 32 10 (by omega) _ (by
    intro t ht
    simp at ht
    rcases ht with rfl | rfl | rfl
    · decide
    · cases e <;> decide
    · decide))]
  dsimp only
  rw [splitSep_joinSep 32 _ (by simp) (by
    intro t ht
    simp at ht
    rcases ht with rfl | rfl | rfl
    · decide
    · cases e <;> decide
    · decide)]
  dsimp only
  rw [if_pos (by cases e <;> decide :
    (kwFormat = kwFormat && kwVersion = kwVersion : Bool) = true)]
  rw [parseEncodingTok_kw]
  dsimp only
  have h7 : parseHeaderLoop 7
      (renderLine [kwElement, kwVertex, natDecimal nv]
        ++ (renderLine [kwProperty, kwFloat, kwX]
        ++ (renderLine [kwProperty, kwFloat, kwY]
        ++ (renderLine [kwProperty, kwFloat, kwZ]
        ++ (renderLine [kwElement, kwFace, natDecimal nf]
        ++ (renderLine [kwProperty, kwList, kwUchar, kwUint,
              kwVertexIndices]
        ++ (renderLine [kwEndHeader] ++ body))))))) []
      = some ([⟨kwVertex, nv, vertexDefs⟩, ⟨kwFace, nf, faceDefs⟩],
          body) := by
    rw [show (7 : Nat) = 6 + 1 from rfl,
      parseHeaderLoop_step 6 [kwElement, kwVertex, natDecimal nv] _ []
        (by simp) (by
          intro t ht
          simp at ht
          rcases ht with rfl | rfl | rfl
          · decide
          · decide
          · exact natDecimal_nomem nv),
      classify_element]
    dsimp only
    rw [show (6 : Nat) = 5 + 1 from rfl,
      parseHeaderLoop_step 5 [kwProperty, kwFloat, kwX] _ _
        (by simp) (by
          intro t ht
          simp at ht
          rcases ht with rfl | rfl | rfl <;> decide),
      classify_prop_float]
    dsimp only
    rw [show (5 : Nat) = 4 + 1 from rfl,
      parseHeaderLoop_step 4 [kwProperty, kwFloat, kwY] _ _
        (by simp) (by
          intro t ht
          simp at ht
          rcases ht with rfl | rfl | rfl <;> decide),
      classify_prop_float]
    dsimp only
    rw [show (4 : Nat) = 3 + 1 from rfl,
      parseHeaderLoop_step 3 [kwProperty, kwFloat, kwZ] _ _
        (by simp) (by
          intro t ht
          simp at ht
          rcases ht with rfl | rfl | rfl <;> decide),
      classify_prop_float]
    dsimp only
    rw [show (3 : Nat) = 2 + 1 from rfl,
      parseHeaderLoop_step 2 [kwElement, kwFace, natDecimal nf] _ _
        (by simp) (by
          intro t ht
          simp at ht
          rcases ht with rfl | rfl | rfl
          · decide
          · decide
          · exact natDecimal_nomem nf),
      classify_element]
    dsimp only
    rw [show (2 : Nat) = 1 + 1 from rfl,
      parseHeaderLoop_step 1
        [kwProperty, kwList, kwUchar, kwUint, kwVertexIndices] _ _
        (by simp) (by
          intro t ht
          simp at ht
          rcases ht with rfl | rfl | rfl | rfl | rfl <;> decide),
      classify_prop_list]
    dsimp only
    rw [show (1 : Nat) = 0 + 1 from rfl,
      parseHeaderLoop_step 0 [kwEndHeader] _ _
        (by simp) (by
          intro t ht
          simp at ht
          subst ht
          decide),
      classify_end]
    dsimp only
    rfl
  have hlen : 7 ≤ (renderLine [kwElement, kwVertex, natDecimal nv]
        ++ (renderLine [kwProperty, kwFloat, kwX]
        ++ (renderLine [kwProperty, kwFloat, kwY]
        ++ (renderLine [kwProperty, kwFloat, kwZ]
        ++ (renderLine [kwElement, kwFace, natDecimal nf]
        ++ (renderLine [kwProperty, kwList, kwUchar, kwUint,
              kwVertexIndices]
        ++ (renderLine [kwEndHeader] ++ body))))))).length + 1 := by
    simp [renderLine, List.length_append]
    omega
  rw [parseHeaderLoop_mono 7 _ [] _ h7 _ hlen]

end Ply

namespace Ply

/-- A binary vertex record parses to its three float patterns. -/
theorem parseRecordBin_vertex (big : Bool) (v : Nat × Nat × Nat)
    (h1 : v.1 < 2 ^ 32) (h2 : v.2.1 < 2 ^ 32) (h3 : v.2.2 < 2 ^ 32)
    (rest : List Nat) :
    parseRecordBin big vertexDefs (vertexBinBytes big v ++ rest)
      = some ([.scalar .float v.1, .scalar .float v.2.1,
          .scalar .float v.2.2], rest) := by
  simp only [vertexDefs, vertexBinBytes, List.append_assoc,
    parseRecordBin, parsePropBin,
    parseScalarBin_enc4 big .float rfl v.1 h1,
    parseScalarBin_enc4 big .float rfl v.2.1 h2,
    parseScalarBin_enc4 big .float rfl v.2.2 h3]

/-- A binary face record parses to its index list. -/
theorem parseRecordBin_face (big : Bool) (f : Nat × Nat × Nat)
    (h1 : f.1 < 2 ^ 32) (h2 : f.2.1 < 2 ^ 32) (h3 : f.2.2 < 2 ^ 32)
    (rest : List Nat) :
    parseRecordBin big faceDefs (faceBinBytes big f ++ rest)
      = some ([.list .uchar .uint [f.1, f.2.1, f.2.2]], rest) := by
  have hlen : readBytesN (ListLenType.uchar.width)
      (faceBinBytes big f ++ rest)
      = some ([3], enc4 big f.1 ++ (enc4 big f.2.1
          ++ (enc4 big f.2.2 ++ rest))) := by
    simp only [faceBinBytes, List.append_assoc]
    exact readBytesN_exact 1 [3] _ rfl
  have hdec : (if big then fromBE [3] else fromLE [3]) = 3 := by
    cases big <;> simp [fromBE, fromLE]
  simp only [faceDefs, parseRecordBin, parsePropBin, hlen, hdec,
    parseScalarsBin,
    parseScalarBin_enc4 big .uint rfl f.1 h1,
    parseScalarBin_enc4 big .uint rfl f.2.1 h2,
    parseScalarBin_enc4 big .uint rfl f.2.2 h3]

/-- Reading `n` binary records of a schema reads each record in turn. -/
theorem parseRecordsBin_map {α : Type} (big : Bool)
    (pds : List PropertyDef) (recBytes : α → List Nat)
    (recVal : α → List Property) :
    ∀ (xs : List α),
      (∀ x ∈ xs, ∀ rest : List Nat,
        parseRecordBin big pds (recBytes x ++ rest)
          = some (recVal x, rest)) →
      ∀ rest : List Nat,
        parseRecordsBin big pds xs.length
            ((xs.map recBytes).flatten ++ rest)
          = some (xs.map recVal, rest) := by
  intro xs
  induction xs with
  | nil => intro _ rest; simp [parseRecordsBin]
  | cons x xs ih =>
      intro hstep rest
      rw [List.length_cons, List.map_cons, List.flatten_cons,
        List.append_assoc, parseRecordsBin,
        hstep x (List.mem_cons_self x xs) _]
      dsimp only
      rw [ih (fun y hy => hstep y (List.mem_cons_of_mem x hy)) rest]
      dsimp only
      rw [List.map_cons]

end Ply

namespace Ply

/-- An ASCII vertex record's tokens parse to its three float patterns,
consuming the whole line. -/
theorem parseRecordAscii_vertex (c : FloatCodec) (hc : GoodCodec c)
    (v : Nat × Nat × Nat) (h1 : v.1 < 2 ^ 32) (h2 : v.2.1 < 2 ^ 32)
    (h3 : v.2.2 < 2 ^ 32) :
    parseRecordAscii c vertexDefs (vertexLineToks c v)
      = some ([.scalar .float v.1, .scalar .float v.2.1,
          .scalar .float v.2.2], []) := by
  simp only [vertexDefs, vertexLineToks, parseRecordAscii, parsePropAscii,
    parseScalarTok, hc.1 v.1 h1, hc.1 v.2.1 h2, hc.1 v.2.2 h3]

/-- An ASCII face record's tokens parse to its index list, consuming the
whole line. -/
theorem parseRecordAscii_face (c : FloatCodec) (f : Nat × Nat × Nat)
    (h1 : f.1 < 2 ^ 32) (h2 : f.2.1 < 2 ^ 32) (h3 : f.2.2 < 2 ^ 32) :
    parseRecordAscii c faceDefs (faceLineToks f)
      = some ([.list .uchar .uint [f.1, f.2.1, f.2.2]], []) := by
  simp only [faceDefs, faceLineToks, parseRecordAscii, parsePropAscii,
    parseScalarToks, parseScalarTok, parseNat_natDecimal]
  rw [if_pos (by simp [ListLenType.width] :
    (3 : Nat) < 256 ^ ListLenType.uchar.width)]
  rw [if_pos h1, if_pos h2, if_pos h3]

/-- Reading `n` ASCII records of a schema reads one line per record. -/
theorem parseGroupAscii_map {α : Type} (c : FloatCodec)
    (pds : List PropertyDef) (recToks : α → List (List Nat))
    (recVal : α → List Property) :
    ∀ (xs : List α),
      (∀ x ∈ xs, parseRecordAscii c pds (recToks x)
        = some (recVal x, [])) →
      (∀ x ∈ xs, recToks x ≠ []) →
      (∀ x ∈ xs, ∀ t ∈ recToks x, (10 : Nat) ∉ t ∧ (32 : Nat) ∉ t) →
      ∀ rest : List Nat,
        parseGroupAscii c pds xs.length
            ((xs.map fun x => renderLine (recToks x)).flatten ++ rest)
          = some (xs.map recVal, rest) := by
  intro xs
  induction xs with
  | nil => intro _ _ _ rest; simp [parseGroupAscii]
  | cons x xs ih =>
      intro hstep hne hfree rest
      rw [List.length_cons, List.map_cons, List.flatten_cons,
        List.append_assoc, parseGroupAscii]
      rw [show renderLine (recToks x)
            ++ ((xs.map fun y => renderLine (recToks y)).flatten ++ rest)
          = joinSep 32 (recToks x) ++ 10 ::
            ((xs.map fun y => renderLine (recToks y)).flatten ++ rest)
        from by simp [renderLine]]
      rw [parseLine_append _ _
        (joinSep_not_mem 32 10 (by omega) _
          (fun t ht => (hfree x (List.mem_cons_self x xs) t ht).1))]
      dsimp only
      rw [splitSep_joinSep 32 _ (hne x (List.mem_cons_self x xs))
        (fun t ht => (hfree x (List.mem_cons_self x xs) t ht).2)]
      rw [hstep x (List.mem_cons_self x xs)]
      dsimp only
      rw [ih (fun y hy => hstep y (List.mem_cons_of_mem x hy))
        (fun y hy => hne y (List.mem_cons_of_mem x hy))
        (fun y hy => hfree y (List.mem_cons_of_mem x hy)) rest]
      dsimp only
      rw [List.map_cons]

end Ply

namespace Ply

/-- The emitted body parses back, group by group, to the mesh's
typed-property stream, consuming every byte. -/
theorem parseGroups_bodyBytes (c : FloatCodec) (hc : GoodCodec c)
    (m : PlyMesh) (hm : m.WF) (e : Encoding) :
    parseGroups e c [⟨kwVertex, m.vertices.length, vertexDefs⟩,
        ⟨kwFace, m.faces.length, faceDefs⟩] (bodyBytes c e m)
      = some (rawStreamOf m, []) := by
  obtain ⟨hmv, hmf⟩ := hm
  cases e with
  | ascii =>
      rw [parseGroups]
      dsimp only [bodyBytes]
      rw [parseGroupAscii_map c vertexDefs (vertexLineToks c) _ m.vertices
        (fun v hv => parseRecordAscii_vertex c hc v (hmv v hv).1
          (hmv v hv).2.1 (hmv v hv).2.2)
        (fun v _ => by simp [vertexLineToks])
        (fun v hv t ht => by
          rcases (hmv v hv) with ⟨b1, b2, b3⟩
          simp only [vertexLineToks, List.mem_cons,
            List.not_mem_nil, or_false] at ht
          rcases ht with rfl | rfl | rfl
          · exact ⟨fun hb => ((hc.2 _ b1) 10 hb).1 rfl,
              fun hb => ((hc.2 _ b1) 32 hb).2 rfl⟩
          · exact ⟨fun hb => ((hc.2 _ b2) 10 hb).1 rfl,
              fun hb => ((hc.2 _ b2) 32 hb).2 rfl⟩
          · exact ⟨fun hb => ((hc.2 _ b3) 10 hb).1 rfl,
              fun hb => ((hc.2 _ b3) 32 hb).2 rfl⟩) _]
      dsimp only
      rw [parseGroups]
      dsimp only
      rw [← List.append_nil
        ((m.faces.map fun f => renderLine (faceLineToks f)).flatten)]
      rw [parseGroupAscii_map c faceDefs faceLineToks _ m.faces
        (fun f hf => parseRecordAscii_face c f (hmf f hf).1
          (hmf f hf).2.1 (hmf f hf).2.2)
        (fun f _ => by simp [faceLineToks])
        (fun f _ t ht => by
          simp only [faceLineToks, List.mem_cons,
            List.not_mem_nil, or_false] at ht
          rcases ht with rfl | rfl | rfl | rfl <;>
            exact natDecimal_nomem _) []]
      dsimp only
      rw [parseGroups]
      rfl
  | binaryLittleEndian =>
      rw [parseGroups]
      dsimp only [bodyBytes]
      rw [parseRecordsBin_map false vertexDefs (vertexBinBytes false) _
        m.vertices
        (fun v hv rest => parseRecordBin_vertex false v (hmv v hv).1
          (hmv v hv).2.1 (hmv v hv).2.2 rest) _]
      dsimp only
      rw [parseGroups]
      dsimp only
      rw [← List.append_nil ((m.faces.map (faceBinBytes false)).flatten)]
      rw [parseRecordsBin_map false faceDefs (faceBinBytes false) _
        m.faces
        (fun f hf rest => parseRecordBin_face false f (hmf f hf).1
          (hmf f hf).2.1 (hmf f hf).2.2 rest) []]
      dsimp only
      rw [parseGroups]
      rfl
  | binaryBigEndian =>
      rw [parseGroups]
      dsimp only [bodyBytes]
      rw [parseRecordsBin_map true vertexDefs (vertexBinBytes true) _
        m.vertices
        (fun v hv rest => parseRecordBin_vertex true v (hmv v hv).1
          (hmv v hv).2.1 (hmv v hv).2.2 rest) _]
      dsimp only
      rw [parseGroups]
      dsimp only
      rw [← List.append_nil ((m.faces.map (faceBinBytes true)).flatten)]
      rw [parseRecordsBin_map true faceDefs (faceBinBytes true) _
        m.faces
        (fun f hf rest => parseRecordBin_face true f (hmf f hf).1
          (hmf f hf).2.1 (hmf f hf).2.2 rest) []]
      dsimp only
      rw [parseGroups]
      rfl

/-- Reading back a written PLY file yields the mesh's typed-property
stream, for every encoding. -/
theorem readPly_writePly (c : FloatCodec) (hc : GoodCodec c)
    (m : PlyMesh) (hm : m.WF) (e : Encoding) :
    readPly c (writePly c m e) = some (rawStreamOf m) := by
  unfold readPly writePly
  rw [parseHeader_headerBytes]
  dsimp only
  rw [parseGroups_bodyBytes c hc m hm e]

end Ply

namespace Ply

/-- A concrete ASCII float codec satisfying the serialization contract:
the 32-bit pattern is rendered as its decimal numeral.  (It stands in
for the writer's round-tripping decimal float rendering; the encoding
independence theorem holds for every codec satisfying `GoodCodec`.) -/
def patternCodec : FloatCodec where
  render32 := natDecimal
  parse32 := fun tok =>
    match parseNat tok with
    | none => none
    | some n => if n < 2 ^ 32 then some n else none
  render64 := natDecimal
  parse64 := fun tok =>
    match parseNat tok with
    | none => none
    | some n => if n < 2 ^ 64 then some n else none

/-- `patternCodec` satisfies the serialization contract. -/
theorem patternCodec_good : GoodCodec patternCodec := by
  constructor
  · intro n hn
    show (match parseNat (natDecimal n) with
      | none => none
      | some v => if v < 2 ^ 32 then some v else none) = some n
    rw [parseNat_natDecimal]
    dsimp only
    rw [if_pos hn]
  · intro n _ b hb
    have := natDecimal_bytes n b hb
    omega

/-- The reference triangle mesh of the tests, with the IEEE-754 `f32`
bit patterns of `(0,0,0)`, `(3,5,8)`, `(1.942,152.99,0.007)` and the one
face `[0,1,2]`. -/
def refTriangle : PlyMesh where
  vertices := [(0, 0, 0),
    (1077936128, 1084227584, 1090519040),
    (1073255285, 1125711217, 1004888130)]
  faces := [(0, 1, 2)]

/-- **C2.** For any mesh and any two PLY encodings among ASCII,
binary-little-endian and binary-big-endian, parsing the writer's output
under the first encoding and parsing it under the second with the raw
PLY reader produce equal typed-property streams — the same element
groups with the same names, counts, property definitions and property
values (both equal the mesh's canonical stream). -/
theorem c2_encoding_independence (c : FloatCodec) (hc : GoodCodec c)
    (m : PlyMesh) (hm : m.WF) (e1 e2 : Encoding) :
    readPly c (writePly c m e1) = readPly c (writePly c m e2) ∧
    readPly c (writePly c m e1) = some (rawStreamOf m) := by
  refine ⟨?_, readPly_writePly c hc m hm e1⟩
  rw [readPly_writePly c hc m hm e1, readPly_writePly c hc m hm e2]

/-- Witness for `c2_encoding_independence`: the reference triangle,
written as ASCII and as binary-big-endian. -/
theorem c2_encoding_independence_witness :
    (readPly patternCodec (writePly patternCodec refTriangle .ascii)
      = readPly patternCodec
          (writePly patternCodec refTriangle .binaryBigEndian)) ∧
    readPly patternCodec (writePly patternCodec refTriangle .ascii)
      = some (rawStreamOf refTriangle) :=
  c2_encoding_independence patternCodec patternCodec_good refTriangle
    (by constructor <;> intro x hx <;> simp [refTriangle] at hx <;>
      rcases hx with rfl | rfl | rfl <;> norm_num)
    .ascii .binaryBigEndian

end Ply
